import Mathlib

set_option maxRecDepth 4000

/-!
Shallow embedding of the world engine of world.core.js (ruxi/world-js).

The core source is `WorldJS` in src/js/world.core.js: the constructor, `add`,
`remove`, `addRandomPeople`, the tick loop `run`, `start` and `stop`.
External collaborators that the core consumes (the `Tile` spatial index, the
`Seed` entity constructor, the `Statistic` store, the `Rules`/`Knowledge`
tunables, the `Event` notifier and canvas rendering) are not part of the
source file; where their behavior matters it is modelled from the spec and
marked `Modelled from the spec:` in the doc comment.

Conventions of the embedding:
- JS numbers that stay integral are `Int` (coordinates, counters) or `Nat`
  (identifiers, indices); JS `%` coincides with `Int.emod` on the nonnegative
  operands that occur here.
- The JS `false` sentinel for an unset coordinate is `Option.none`.
- `Math.random`-based draws consume a queue of raw naturals (`World.rng`);
  a draw in `[min, max]` takes the next queue element modulo the span.
- Callbacks are identified by numeric tokens; invoking the stop callback
  appends its token to `World.stopLog` (the no-op callback appends nothing).
- Calls into per-seed behavior `seed.tick(speed)` are recorded in the ghost
  field `World.tickLog`; the behavior itself is a parameter `beh` since the
  Seed classes are collaborators outside the core.
-/

namespace WorldJS

/-- The two entity kinds (the `Male` / `Female` seed classes of the host). -/
inductive SKind where
  | male
  | female
deriving DecidableEq, Repr

/-- A seed (simulated individual).  Field names follow world.core.js; `x`/`y`
use `none` for the JS `false` sentinel of an unset coordinate. -/
structure Seed where
  kind : SKind
  id : Nat
  age : Int
  tickCount : Int
  stepCount : Int
  tickMod : Nat
  tickIndex : Nat
  tileIndex : Nat
  x : Option Int
  y : Option Int
  married : Bool
  relationSeed : Option Nat
  IQ : Int
  apprWidth : Int
  apprHeight : Int
  actionInterval : Int
  maxChildAge : Int
deriving DecidableEq, Repr

/-- The `data` argument of `WorldJS.prototype.add` / the Seed constructor. -/
structure SeedData where
  age : Option Int := none
  tickCount : Option Int := none
  x : Option Int := none
  y : Option Int := none
deriving DecidableEq, Repr

/-- The per-year statistics aggregates computed by `run`
(`sPopulation`, `sIQ`, `sMen`, `sWomen`, `sBoys`, `sGirls`, `sFamilies`). -/
structure Agg where
  population : Nat
  IQ : Int
  men : Nat
  women : Nat
  boys : Nat
  girls : Nat
  families : Nat
deriving DecidableEq, Repr

/-- The world state.  Fields mirror the `WorldJS` constructor plus the state
of the modelled collaborators:
`tiles` is `world.Tile.list` (slots hold seed ids, `none` is a vacated slot),
`seeds` is the registry of all seed objects ever admitted (JS objects live in
the heap; liveness is tile occupancy), `statPopulation`/`lastAggregates` model
the `Statistic` collaborator, `stopLog`/`yearEvents`/`lastYearPassed`/
`scheduledNext`/`tickLog` are ghost observations of callback invocations,
`rng` is the pending `Math.random` draw queue. -/
structure World where
  running : Bool
  stopCallback : Option Nat
  stopLog : List Nat
  width : Int
  height : Int
  padding : Int
  nextSeedId : Nat
  maxSafeSeedsForDisplay : Int
  tickPerYear : Nat
  speed : Int
  tickMod : Nat
  distributedTicks : List Int
  tiles : List (List (Option Nat))
  seeds : List (Nat × Seed)
  statPopulation : Int
  lastAggregates : Option Agg
  yearEvents : Nat
  lastYearPassed : Bool
  scheduledNext : Bool
  tickLog : List Nat
  baseIQ : Int
  rng : List Nat
deriving DecidableEq, Repr

/-- Look up a seed by id in a registry (first match, as a JS reference would). -/
def findSeed : List (Nat × Seed) → Nat → Option Seed
  | [], _ => none
  | p :: rest, id => if p.1 = id then some p.2 else findSeed rest id

/-- Look up a live-or-dead seed object by id. -/
def lookupSeed (w : World) (id : Nat) : Option Seed :=
  findSeed w.seeds id

/-- Overwrite the registry entry for `id` (mutation of the JS seed object). -/
def setSeedFields : List (Nat × Seed) → Nat → Seed → List (Nat × Seed)
  | [], _, _ => []
  | p :: rest, id, s =>
      (if p.1 = id then (id, s) else p) :: setSeedFields rest id s

/-- Mutate the seed object `id` in the world. -/
def updateSeed (w : World) (id : Nat) (s : Seed) : World :=
  { w with seeds := setSeedFields w.seeds id s }

/-- The tick-stamp (`seed.tickMod`) of seed `id`, if the seed exists. -/
def stampOf (w : World) (id : Nat) : Option Nat :=
  (lookupSeed w id).map (fun s => s.tickMod)

/-- Modelled from the spec: the Tile collaborator uses fixed-size square
cells (§4.1: deterministic, total, arena-width-aware bucketing; the concrete
cell size is owned by the collaborator — 20 px here). -/
def tileSize : Int := 20

/-- Modelled from the spec: number of tile columns for an arena width. -/
def tileColsOf (width : Int) : Nat :=
  ((width + tileSize - 1) / tileSize).toNat

/-- Modelled from the spec: number of tile rows for an arena height. -/
def tileRowsOf (height : Int) : Nat :=
  ((height + tileSize - 1) / tileSize).toNat

/-- Modelled from the spec: `Tile.init` storage — one empty slot list per
cell of the grid. -/
def tilesInit (width height : Int) : List (List (Option Nat)) :=
  List.replicate (tileColsOf width * tileRowsOf height) []

/-- Modelled from the spec: `Tile.getIndex(seed)` — deterministic bucketing
of the seed's position (§4.1). -/
def tileGetIndex (w : World) (s : Seed) : Nat :=
  ((s.x.getD 0) / tileSize).toNat +
    ((s.y.getD 0) / tileSize).toNat * tileColsOf w.width

/-- Modelled from the spec: insertion into one tile's slot list — reuse the
first vacated slot if one exists, else append; other occupants keep their
slots (§4.1 `place`). -/
def insertIntoTile : List (Option Nat) → Nat → List (Option Nat)
  | [], id => [some id]
  | none :: rest, id => some id :: rest
  | some c :: rest, id => some c :: insertIntoTile rest id

/-- Modelled from the spec: removal from one tile's slot list — vacate the
slot (set to empty) rather than shifting the sequence (§4.1 `remove`). -/
def removeFromTile (t : List (Option Nat)) (id : Nat) : List (Option Nat) :=
  t.map (fun c => if c = some id then none else c)

/-- Modelled from the spec: `Tile.set` on tile `ti` (out-of-range `ti`
leaves the storage unchanged; the core only produces in-bounds indices). -/
def tileSetAt (w : World) (ti : Nat) (id : Nat) : World :=
  { w with tiles := w.tiles.set ti (insertIntoTile (w.tiles.getD ti []) id) }

/-- Modelled from the spec: `Tile.rem` on tile `ti`. -/
def tileRemAt (w : World) (ti : Nat) (id : Nat) : World :=
  { w with tiles := w.tiles.set ti (removeFromTile (w.tiles.getD ti []) id) }

/-- A seed id occupies some slot of the given tile storage. -/
def tilesOcc (tiles : List (List (Option Nat))) (id : Nat) : Bool :=
  tiles.any (fun t => t.any (fun c => c == some id))

/-- A seed id occupies some tile slot (liveness of a seed). -/
def occupiesTile (w : World) (id : Nat) : Bool :=
  tilesOcc w.tiles id

/-- One `random(min, max)` draw (`Math.floor(Math.random()*(max-min+1)+min)`),
consuming the head of the raw draw queue; yields a value in `[min, max]`
whenever `min ≤ max`. -/
def randDraw (w : World) (lo hi : Int) : Int × World :=
  let u := w.rng.headD 0
  let span := hi - lo + 1
  (if span ≤ 0 then lo else lo + ((u % span.toNat : Nat) : Int),
    { w with rng := w.rng.tail })

/-- Modelled from the spec: the Seed entity constructor (an entity-kind
collaborator, §6, not part of the core source).  It records the supplied data
fields, uses the `none` sentinel for unspecified coordinates, and carries the
static footprint dimensions, the child/adult age threshold and the default
`actionInterval` (half of `tickPerYear`, §4.2). -/
def mkSeed (kind : SKind) (data : SeedData) : Seed :=
  { kind := kind
    id := 0
    age := 0
    tickCount := data.tickCount.getD 0
    stepCount := 0
    tickMod := 0
    tickIndex := 0
    tileIndex := 0
    x := data.x
    y := data.y
    married := false
    relationSeed := none
    IQ := 0
    apprWidth := 13
    apprHeight := 20
    actionInterval := 30
    maxChildAge := 15 }

/-- The world constructor (`var WorldJS = function() {...}` translated; the
canvas/sprite fields are rendering infrastructure and not modelled). -/
def worldNew (width height : Int) (rng : List Nat) : World :=
  { running := false
    stopCallback := none
    stopLog := []
    width := width
    height := height
    padding := 10
    nextSeedId := 1
    maxSafeSeedsForDisplay := 30000
    tickPerYear := 60
    speed := 1
    tickMod := 0
    distributedTicks := List.replicate (60 - 1) 0
    tiles := tilesInit width height
    seeds := []
    statPopulation := 0
    lastAggregates := none
    yearEvents := 0
    lastYearPassed := false
    scheduledNext := false
    tickLog := []
    baseIQ := 0
    rng := rng }

/-- One step of the minimum scan of `add` (lines 205-213):
`if (distributedTicks[i] < minValue) { minIndex = i; minValue = ... }`. -/
def scanStep (dt : List Int) (acc : Nat × Int) (i : Nat) : Nat × Int :=
  if dt.getD i 0 < acc.2 then (i, dt.getD i 0) else acc

/-- The full scan: start from `(0, distributedTicks[0])` and fold the loop
body over `i = 0 .. len-1`; returns `(minIndex, minValue)`. -/
def minIdxScan (dt : List Int) : Nat × Int :=
  (List.range dt.length).foldl (scanStep dt) (0, dt.headD 0)

/-- `distributedTicks[m]++`. -/
def listIncAt (dt : List Int) (m : Nat) : List Int :=
  dt.set m (dt.getD m 0 + 1)

/-- `distributedTicks[m]--`. -/
def listDecAt (dt : List Int) (m : Nat) : List Int :=
  dt.set m (dt.getD m 0 - 1)

/-- `WorldJS.prototype.add` (lines 168-228), returning both the constructed
seed and the updated world.  `Statistic.seedAdded` is modelled as an
increment of the statistics population count. -/
def addBuild (kind : SKind) (data : SeedData) (w : World) : Seed × World :=
  let seed0 := mkSeed kind data
  let seed1 := { seed0 with id := w.nextSeedId }
  let w1 := { w with nextSeedId := w.nextSeedId + 1 }
  let seed2 := { seed1 with age := data.age.getD 0 }
  let seed3 :=
    { seed2 with
      tickCount :=
        if 0 < seed2.age then seed2.age * Int.ofNat w1.tickPerYear
        else seed2.tickCount }
  let seed4 := { seed3 with tickMod := w1.tickMod }
  let seed5 := { seed4 with IQ := seed4.IQ + w1.baseIQ }
  let xw :=
    match seed5.x with
    | some v => (v, w1)
    | none => randDraw w1 0 (w1.width - 1 - max seed5.apprWidth w1.padding)
  let w2 := xw.2
  let yw :=
    match seed5.y with
    | some v => (v, w2)
    | none => randDraw w2 0 (w2.height - 1 - seed5.apprHeight - w2.padding)
  let w3 := yw.2
  let seed6 := { seed5 with x := some xw.1, y := some yw.1 }
  let ti := tileGetIndex w3 seed6
  let seed7 := { seed6 with tileIndex := ti }
  let w4 := tileSetAt w3 ti seed7.id
  let m := (minIdxScan w4.distributedTicks).1
  let w5 := { w4 with distributedTicks := listIncAt w4.distributedTicks m }
  let seed8 := { seed7 with tickIndex := m }
  let seed9 :=
    { seed8 with
      tickCount := seed8.tickCount +
        (Int.ofNat w5.tickMod + seed8.tickCount + Int.ofNat m) %
          seed8.actionInterval }
  let seed10 := { seed9 with stepCount := seed9.tickCount }
  (seed10,
    { w5 with
      seeds := w5.seeds ++ [(seed10.id, seed10)]
      statPopulation := w5.statPopulation + 1 })

/-- `WorldJS.prototype.add` as a world transformer. -/
def add (kind : SKind) (data : SeedData) (w : World) : World :=
  (addBuild kind data w).2

/-- The marriage-teardown block of `remove` (lines 239-246): clear the evicted
seed's flags, then the partner object's flag and back-reference.  A married
seed whose `relationSeed` is absent would crash in JS; the case is unreachable
for symmetric marriages and maps to clearing only the evicted seed. -/
def marryTeardown (w : World) (id : Nat) (seed : Seed) : World :=
  let w1 := updateSeed w id { seed with married := false, relationSeed := none }
  match seed.relationSeed with
  | none => w1
  | some pid =>
      match lookupSeed w1 pid with
      | none => w1
      | some p =>
          updateSeed w1 pid { p with married := false, relationSeed := none }

/-- `WorldJS.prototype.remove` (lines 234-253).  `Statistic.seedRemoved` is
modelled as a decrement of the statistics population count.  An id with no
seed object is left untouched (in JS the argument is a live seed reference). -/
def remove (id : Nat) (w : World) : World :=
  match lookupSeed w id with
  | none => w
  | some seed =>
      let w1 := { w with statPopulation := w.statPopulation - 1 }
      let w2 := if seed.married then marryTeardown w1 id seed else w1
      let w3 := tileRemAt w2 seed.tileIndex id
      { w3 with distributedTicks := listDecAt w3.distributedTicks seed.tickIndex }

/-- The statistics accumulation of a year-boundary visit (lines 372-389),
applied after `seed.age++`. -/
def aggAdd (a : Agg) (s : Seed) : Agg :=
  let a1 := { a with population := a.population + 1, IQ := a.IQ + s.IQ }
  match s.kind with
  | SKind.male =>
      if s.age ≤ s.maxChildAge then { a1 with boys := a1.boys + 1 }
      else
        let a2 := { a1 with men := a1.men + 1 }
        if s.married then { a2 with families := a2.families + 1 } else a2
  | SKind.female =>
      if s.age ≤ s.maxChildAge then { a1 with girls := a1.girls + 1 }
      else { a1 with women := a1.women + 1 }

/-- The zero aggregates (loop-entry values of `sPopulation`, `sIQ`, ...). -/
def aggZero : Agg :=
  { population := 0, IQ := 0, men := 0, women := 0, boys := 0, girls := 0
    families := 0 }

/-- The state of a visited seed after lines 366-369: stamped with the
current tick counter (`seed.tickMod = world.tickMod`), and aged by one year
on a year boundary (`seed.age++`). -/
def stampedSeed (w : World) (seed : Seed) (yp : Bool) : Seed :=
  { seed with
    tickMod := w.tickMod
    age := if yp then seed.age + 1 else seed.age }

/-- The world after stamping/aging the visited seed and recording the
imminent `seed.tick(speed)` collaborator call in the ghost invocation log. -/
def stampWorld (w : World) (id : Nat) (seed : Seed) (yp : Bool) : World :=
  { updateSeed w id (stampedSeed w seed yp) with tickLog := w.tickLog ++ [id] }

/-- Tile reconciliation after the seed's behavior ran (lines 412-421):
recompute the tile index from the post-behavior position; when it differs
from `oldTileIndex` (captured at line 353), vacate the seed's current slot,
record the new tile index, and insert into the new tile. -/
def relocateSeed (w2 : World) (id : Nat) (seedA : Seed) (oldTi : Nat) : World :=
  let newTileIndex := tileGetIndex w2 seedA
  if newTileIndex = oldTi then w2
  else
    let w3 := tileRemAt w2 seedA.tileIndex id
    let w4 := updateSeed w3 id { seedA with tileIndex := newTileIndex }
    tileSetAt w4 newTileIndex id

/-- The body of the tick loop for one slot `j` of tile `i` (lines 350-422):
skip vacated slots; skip a seed already stamped with the current counter
(lines 363-365); otherwise stamp it, age/aggregate it on a year boundary,
invoke its behavior `beh` (the `seed.tick(speed)` collaborator call, recorded
in `tickLog`), and reconcile its tile membership if its position now buckets
elsewhere.  Rendering (`reDraw`, `displayedSeeds`, `seed.draw`) has no
modelled state. -/
def slotStep (beh : Nat → World → World) (yp : Bool) (i : Nat)
    (p : World × Agg) (j : Nat) : World × Agg :=
  match (p.1.tiles.getD i []).getD j none with
  | none => p
  | some id =>
      match lookupSeed p.1 id with
      | none => p
      | some seed =>
          if seed.tickMod = p.1.tickMod then p
          else
            let agg1 := if yp then aggAdd p.2 (stampedSeed p.1 seed yp) else p.2
            let w2 := beh id (stampWorld p.1 id seed yp)
            match lookupSeed w2 id with
            | none => (w2, agg1)
            | some seedA => (relocateSeed w2 id seedA seed.tileIndex, agg1)

/-- The inner slot loop over one tile: `len2 = seeds.length` is captured on
entering the tile (line 350). -/
def tileStep (beh : Nat → World → World) (yp : Bool)
    (p : World × Agg) (i : Nat) : World × Agg :=
  (List.range ((p.1.tiles.getD i []).length)).foldl (slotStep beh yp i) p

/-- The full traversal (lines 347-424): `len = listTile.length` is captured
before the loop. -/
def runLoop (beh : Nat → World → World) (yp : Bool) (w : World) :
    World × Agg :=
  (List.range w.tiles.length).foldl (tileStep beh yp) (w, aggZero)

/-- The pre-loop bookkeeping of `run` (lines 315-326): advance
`tickMod = (tickMod + 1) % tickPerYear`, note whether a year passed, and
reset the per-invocation ghost observations. -/
def preTick (w : World) : World :=
  let t := (w.tickMod + 1) % w.tickPerYear
  { w with
    tickMod := t
    lastYearPassed := t == 0
    scheduledNext := false
    tickLog := [] }

/-- The loop-animation tail of `run` (lines 452-462): while running, schedule
the next frame; otherwise invoke the stored stop callback once and reset it
to the no-op. -/
def finishTick (w : World) : World :=
  if w.running then { w with scheduledNext := true }
  else
    match w.stopCallback with
    | some cb => { w with stopLog := w.stopLog ++ [cb], stopCallback := none }
    | none => { w with stopCallback := none }

/-- `WorldJS.prototype.run` (lines 315-465), parametrized by the per-seed
behavior collaborator `beh`.  On a year boundary the aggregates are delivered
to the Statistic collaborator (modelled: stored in `lastAggregates` and
reflected into `statPopulation`), the yearPassed event is published
(modelled: `yearEvents` incremented), and a zero aggregated population stops
the world and returns before the loop-animation tail. -/
def run (beh : Nat → World → World) (w : World) : World :=
  let w0 := preTick w
  let yp := w0.tickMod == 0
  let pr := runLoop beh yp w0
  if yp then
    let w2 :=
      { pr.1 with
        lastAggregates := some pr.2
        statPopulation := Int.ofNat pr.2.population
        yearEvents := pr.1.yearEvents + 1 }
    if pr.2.population == 0 then { w2 with running := false }
    else finishTick w2
  else finishTick pr.1

/-- Iterated ticks. -/
def runN (beh : Nat → World → World) : Nat → World → World
  | 0, w => w
  | n + 1, w => runN beh n (run beh w)

/-- `WorldJS.prototype.start` (lines 470-473). -/
def start (beh : Nat → World → World) (w : World) : World :=
  run beh { w with running := true }

/-- `WorldJS.prototype.stop` (lines 479-484): clear `running`; store the
callback only when one is supplied. -/
def stop (cb : Option Nat) (w : World) : World :=
  match cb with
  | some c => { w with running := false, stopCallback := some c }
  | none => { w with running := false }

/-- The border-spawn branch of `addRandomPeople` (lines 282-300): for a
border-originating spawn, force the coordinate perpendicular to the border,
drawn near that border. -/
def borderData (w : World) (data : SeedData) (fromBorder : Int) :
    SeedData × World :=
  let bw := if fromBorder = 5 then randDraw w 1 4 else (fromBorder, w)
  let border := bw.1
  let w1 := bw.2
  let pad : Int := 10
  if border = 1 then
    let r := randDraw w1 0 pad
    ({ data with y := some r.1 }, r.2)
  else if border = 2 then
    let r := randDraw w1 (w1.height - pad - 1) (w1.height - 1)
    ({ data with y := some r.1 }, r.2)
  else if border = 3 then
    let r := randDraw w1 0 pad
    ({ data with x := some r.1 }, r.2)
  else if border = 4 then
    let r := randDraw w1 (w1.width - pad - 1) (w1.width - 1)
    ({ data with x := some r.1 }, r.2)
  else (data, w1)

/-- One iteration of the `addRandomPeople` loop (lines 274-307): draw an age,
build the data record, optionally force a border coordinate, and admit a Male
for the first half of the count (`i < count / 2` in JS real division, i.e.
`2 * i < count`), a Female for the rest. -/
def addOnePerson (minAge maxAge fromBorder count : Int) (w : World) (i : Nat) :
    World :=
  let aw := randDraw w minAge maxAge
  let age := aw.1
  let w1 := aw.2
  let data : SeedData :=
    { age := some age, tickCount := some (age * Int.ofNat w1.tickPerYear)
      x := none, y := none }
  let dw := if 0 < fromBorder then borderData w1 data fromBorder else (data, w1)
  if 2 * (i : Int) < count then add SKind.male dw.1 dw.2
  else add SKind.female dw.1 dw.2

/-- `WorldJS.prototype.addRandomPeople` (lines 262-310).  Optional arguments
default to `minAge = 15`, `maxAge = 20`, `fromBorder = 0`; a non-positive
`count` makes the loop body run zero times. -/
def addRandomPeople (count : Int) (minAgeO maxAgeO fromBorderO : Option Int)
    (w : World) : World :=
  let minAge := minAgeO.getD 15
  let maxAge := maxAgeO.getD 20
  let fromBorder := fromBorderO.getD 0
  (List.range count.toNat).foldl (addOnePerson minAge maxAge fromBorder count) w

/-- A lifecycle operation: an admission or an eviction. -/
inductive WOp where
  | addOp (kind : SKind) (data : SeedData)
  | removeOp (id : Nat)

/-- Apply one lifecycle operation.  An eviction is applied only to a live
(tile-occupying) seed, which is the precondition under which the engine's
callers invoke `remove` (a JS caller only ever holds references to live
seeds obtained from the tile traversal). -/
def applyOp (w : World) : WOp → World
  | WOp.addOp kind data => add kind data w
  | WOp.removeOp id => if occupiesTile w id then remove id w else w

/-- Apply a sequence of lifecycle operations. -/
def applyOps (w : World) (ops : List WOp) : World :=
  ops.foldl applyOp w

/-- The bookkeeping invariant tying the scheduler's phase-load counters to
the population count reported by the Lifecycle Manager to the Statistic
collaborator: the counters sum to the reported population, the counter array
is nonempty, every admitted id is below the id allocator, and every live
(tile-occupying) seed records an in-range phase index. -/
def LifeInv (w : World) : Prop :=
  0 < w.distributedTicks.length ∧
  (∀ p ∈ w.seeds, p.1 < w.nextSeedId) ∧
  w.distributedTicks.sum = w.statPopulation ∧
  (∀ id, occupiesTile w id = true →
    ∃ s, lookupSeed w id = some s ∧ s.tickIndex < w.distributedTicks.length)

/-- A trivial seed behavior (a seed that does nothing on its tick). -/
def behId : Nat → World → World := fun _ w => w

/-- Frame conditions of the per-seed behavior collaborator: `seed.tick` may
move seeds, marry them, even admit or evict seeds through the lifecycle
methods, but it never touches the controller state (`running`, the stop
callback machinery, the tick counter, the scheduling/event observations),
never rewinds a tick stamp that equals the current counter, and never forges
entries in the behavior-invocation log. -/
structure BehOk (beh : Nat → World → World) : Prop where
  running_eq : ∀ id w, (beh id w).running = w.running
  stopCallback_eq : ∀ id w, (beh id w).stopCallback = w.stopCallback
  stopLog_eq : ∀ id w, (beh id w).stopLog = w.stopLog
  tickMod_eq : ∀ id w, (beh id w).tickMod = w.tickMod
  tickPerYear_eq : ∀ id w, (beh id w).tickPerYear = w.tickPerYear
  yearEvents_eq : ∀ id w, (beh id w).yearEvents = w.yearEvents
  lastYearPassed_eq : ∀ id w, (beh id w).lastYearPassed = w.lastYearPassed
  scheduledNext_eq : ∀ id w, (beh id w).scheduledNext = w.scheduledNext
  tickLog_eq : ∀ id w, (beh id w).tickLog = w.tickLog
  stamp_stable : ∀ id w j, stampOf w j = some w.tickMod →
    stampOf (beh id w) j = some w.tickMod

/-- Equality of the fields owned by the world controller: the tick loop
never changes these (only `run`'s pre/post phases and `stop` do). -/
def CtrlEq (a b : World) : Prop :=
  a.running = b.running ∧ a.stopCallback = b.stopCallback ∧
    a.stopLog = b.stopLog ∧ a.tickMod = b.tickMod ∧
    a.tickPerYear = b.tickPerYear ∧ a.yearEvents = b.yearEvents ∧
    a.lastYearPassed = b.lastYearPassed ∧ a.scheduledNext = b.scheduledNext

/-- The exactly-once bookkeeping of one tick-loop pass: the recorded
behavior invocations are pairwise distinct, and every seed whose behavior
was invoked carries a stamp equal to the current tick counter. -/
def StampInv (w : World) : Prop :=
  w.tickLog.Nodup ∧ ∀ id ∈ w.tickLog, stampOf w id = some w.tickMod

/-- A concrete seed behavior for scenarios: on its tick, a seed moves one
tile width to the right (so its tile index changes and the engine relocates
it). -/
def behMoveRight : Nat → World → World := fun id w =>
  match lookupSeed w id with
  | none => w
  | some s => updateSeed w id { s with x := some ((s.x.getD 0) + tileSize) }

/-- Scenario world for the exactly-once claim: a 2-tile arena whose first
tile holds seed 1 and whose second tile has a vacated slot; when seed 1
moves right during the pass, its reference is re-inserted into the vacated
slot of the not-yet-visited second tile. -/
def c1World : World :=
  { worldNew 40 20 [] with
    running := true
    tiles := [[some 1], [none]]
    seeds := [(1,
      { mkSeed SKind.male {} with
        id := 1, x := some 0, y := some 0, tileIndex := 0, tickMod := 5 })] }

/-- Scenario world for the year-boundary claim: default construction
(`tickPerYear = 60`), small arena, no admitted seeds, running. -/
def c7World : World := { worldNew 40 20 [] with running := true }

/-- Scenario world for the extinction claim: one tick before a year
boundary, no seeds, with a stop callback registered by a prior `stop`. -/
def c10World : World :=
  { worldNew 40 20 [] with running := true, tickMod := 59, stopCallback := some 7 }

/-- Scenario world for the admission claim: ten random people admitted with
ages in `[15, 20]` and no forced position, drawing from a concrete queue. -/
def c8World : World :=
  addRandomPeople 10 (some 15) (some 20) (some 0)
    (worldNew 200 100 (List.range 30))

/-- Admission data with a forced position far outside the arena bounds. -/
def c9Data : SeedData := { age := some 20, x := some 10000, y := some 10000 }

/-- A fresh world for the invalid-input scenario. -/
def c9World : World := worldNew 200 100 []

/-- Scenario world for the stop-callback claim: running, one tick before a
year boundary (so the in-flight tick after `stop` goes extinct). -/
def c6World : World := { worldNew 40 20 [] with running := true, tickMod := 59 }

/-- Scenario world for the amended stop-callback claim: running, mid-year. -/
def c6World2 : World := { worldNew 40 20 [] with running := true }

/-- The male member of the scenario married pair. -/
def c5A : Seed :=
  { mkSeed SKind.male {} with
    id := 1, x := some 0, y := some 0, married := true, relationSeed := some 2 }

/-- The female member of the scenario married pair. -/
def c5B : Seed :=
  { mkSeed SKind.female {} with
    id := 2, x := some 1, y := some 1, married := true, relationSeed := some 1 }

/-- Scenario world with a mutually married pair of seeds. -/
def c5World : World :=
  { worldNew 40 20 [] with
    tiles := [[some 1, some 2], []]
    seeds := [(1, c5A), (2, c5B)]
    nextSeedId := 3 }

/-- The identity behavior satisfies the frame conditions. -/
theorem behId_ok : BehOk behId :=
  ⟨fun _ _ => rfl, fun _ _ => rfl, fun _ _ => rfl, fun _ _ => rfl,
    fun _ _ => rfl, fun _ _ => rfl, fun _ _ => rfl, fun _ _ => rfl,
    fun _ _ => rfl, fun _ _ _ h => h⟩

/-- A fold preserves any invariant its step preserves. -/
theorem foldl_pres {α β : Type} (f : β → α → β) (P : β → Prop)
    (h : ∀ b a, P b → P (f b a)) :
    ∀ (l : List α) (b : β), P b → P (l.foldl f b) := by
  intro l
  induction l with
  | nil => intro b hb; exact hb
  | cons a l ih => intro b hb; exact ih (f b a) (h b a hb)

theorem findSeed_set_self (id : Nat) (s : Seed) :
    ∀ l : List (Nat × Seed),
      findSeed (setSeedFields l id s) id = (findSeed l id).map (fun _ => s) := by
  intro l
  induction l with
  | nil => rfl
  | cons p rest ih =>
      by_cases h : p.1 = id
      · simp [setSeedFields, findSeed, h]
      · simp [setSeedFields, findSeed, h, ih]

theorem findSeed_set_ne (id j : Nat) (s : Seed) (hne : j ≠ id) :
    ∀ l : List (Nat × Seed),
      findSeed (setSeedFields l id s) j = findSeed l j := by
  intro l
  induction l with
  | nil => rfl
  | cons p rest ih =>
      by_cases h : p.1 = id
      · have h3 : ¬ (id = j) := fun hc => hne hc.symm
        simp [setSeedFields, findSeed, h, h3, ih]
      · by_cases h2 : p.1 = j
        · simp [setSeedFields, findSeed, h, h2, hne, ih]
        · simp [setSeedFields, findSeed, h, h2, ih]

theorem findSeed_append_some (j : Nat) (s : Seed) (l2 : List (Nat × Seed)) :
    ∀ l1, findSeed l1 j = some s → findSeed (l1 ++ l2) j = some s := by
  intro l1
  induction l1 with
  | nil => intro h; exact absurd h (by simp [findSeed])
  | cons p rest ih =>
      intro h
      by_cases hp : p.1 = j
      · simp [findSeed, hp] at h ⊢
        exact h
      · simp only [findSeed, if_neg hp] at h
        simp only [List.cons_append, findSeed, if_neg hp]
        exact ih h

theorem findSeed_append_none (j : Nat) (l2 : List (Nat × Seed)) :
    ∀ l1, findSeed l1 j = none → findSeed (l1 ++ l2) j = findSeed l2 j := by
  intro l1
  induction l1 with
  | nil => intro _; rfl
  | cons p rest ih =>
      intro h
      by_cases hp : p.1 = j
      · simp [findSeed, hp] at h
      · simp only [findSeed, if_neg hp] at h
        simp only [List.cons_append, findSeed, if_neg hp]
        exact ih h

theorem findSeed_key_mem (j : Nat) (s : Seed) :
    ∀ l, findSeed l j = some s → ∃ p, p ∈ l ∧ p.1 = j := by
  intro l
  induction l with
  | nil => intro h; exact absurd h (by simp [findSeed])
  | cons p rest ih =>
      intro h
      by_cases hp : p.1 = j
      · exact ⟨p, List.mem_cons_self _ _, hp⟩
      · simp only [findSeed, if_neg hp] at h
        obtain ⟨q, hq, hk⟩ := ih h
        exact ⟨q, List.mem_cons_of_mem _ hq, hk⟩

theorem findSeed_none_of_keys (j : Nat) :
    ∀ l : List (Nat × Seed), (∀ p ∈ l, p.1 ≠ j) → findSeed l j = none := by
  intro l
  induction l with
  | nil => intro _; rfl
  | cons p rest ih =>
      intro h
      have hp : p.1 ≠ j := h p (List.mem_cons_self _ _)
      simp only [findSeed, if_neg hp]
      exact ih (fun q hq => h q (List.mem_cons_of_mem _ hq))

theorem setSeedFields_keys (id : Nat) (s : Seed) :
    ∀ l (p : Nat × Seed), p ∈ setSeedFields l id s → ∃ q, q ∈ l ∧ p.1 = q.1 := by
  intro l
  induction l with
  | nil => intro p h; exact absurd h (by simp [setSeedFields])
  | cons q rest ih =>
      intro p h
      by_cases hq : q.1 = id
      · simp only [setSeedFields, if_pos hq] at h
        rcases List.mem_cons.mp h with h | h
        · refine ⟨q, List.mem_cons_self _ _, ?_⟩
          rw [h, hq]
        · obtain ⟨r, hr, hk⟩ := ih p h
          exact ⟨r, List.mem_cons_of_mem _ hr, hk⟩
      · simp only [setSeedFields, if_neg hq] at h
        rcases List.mem_cons.mp h with h | h
        · exact ⟨q, List.mem_cons_self _ _, by rw [h]⟩
        · obtain ⟨r, hr, hk⟩ := ih p h
          exact ⟨r, List.mem_cons_of_mem _ hr, hk⟩

theorem sum_listIncAt : ∀ (dt : List Int) (m : Nat), m < dt.length →
    (listIncAt dt m).sum = dt.sum + 1 := by
  intro dt
  induction dt with
  | nil => intro m h; exact absurd h (by simp)
  | cons a rest ih =>
      intro m h
      cases m with
      | zero => simp [listIncAt, List.getD]; ring
      | succ m =>
          have hm : m < rest.length := by simpa using h
          have hrec := ih m hm
          simp only [listIncAt, List.getD_cons_succ, List.set_cons_succ,
            List.sum_cons] at hrec ⊢
          omega

theorem sum_listDecAt : ∀ (dt : List Int) (m : Nat), m < dt.length →
    (listDecAt dt m).sum = dt.sum - 1 := by
  intro dt
  induction dt with
  | nil => intro m h; exact absurd h (by simp)
  | cons a rest ih =>
      intro m h
      cases m with
      | zero => simp [listDecAt, List.getD]; ring
      | succ m =>
          have hm : m < rest.length := by simpa using h
          have hrec := ih m hm
          simp only [listDecAt, List.getD_cons_succ, List.set_cons_succ,
            List.sum_cons] at hrec ⊢
          omega

theorem length_listIncAt (dt : List Int) (m : Nat) :
    (listIncAt dt m).length = dt.length := by
  simp [listIncAt]

theorem length_listDecAt (dt : List Int) (m : Nat) :
    (listDecAt dt m).length = dt.length := by
  simp [listDecAt]

/-- Invariant of the minimum scan: after folding the loop body over the
first `n` indices, the accumulator holds an in-range index, its own value,
a lower bound for all scanned entries, and a strict lower bound for all
earlier entries (the lowest-index tie-break). -/
theorem scanFold_inv (dt : List Int) (h0 : 0 < dt.length) :
    ∀ n, n ≤ dt.length →
      (((List.range n).foldl (scanStep dt) (0, dt.headD 0)).1 < dt.length ∧
        ((List.range n).foldl (scanStep dt) (0, dt.headD 0)).2 =
          dt.getD (((List.range n).foldl (scanStep dt) (0, dt.headD 0)).1) 0 ∧
        (∀ j, j < n →
          ((List.range n).foldl (scanStep dt) (0, dt.headD 0)).2 ≤ dt.getD j 0) ∧
        (∀ j, j < ((List.range n).foldl (scanStep dt) (0, dt.headD 0)).1 →
          ((List.range n).foldl (scanStep dt) (0, dt.headD 0)).2 < dt.getD j 0)) := by
  intro n
  induction n with
  | zero =>
      intro _
      simp only [List.range_zero, List.foldl_nil]
      refine ⟨h0, ?_, ?_, ?_⟩
      · cases dt with
        | nil => simp at h0
        | cons a rest => simp [List.headD, List.getD]
      · intro j hj; exact absurd hj (Nat.not_lt_zero j)
      · intro j hj; exact absurd hj (Nat.not_lt_zero j)
  | succ n ih =>
      intro hn
      have hn' : n ≤ dt.length := Nat.le_of_succ_le hn
      obtain ⟨ih1, ih2, ih3, ih4⟩ := ih hn'
      rw [List.range_succ, List.foldl_append, List.foldl_cons, List.foldl_nil]
      set acc := (List.range n).foldl (scanStep dt) (0, dt.headD 0) with hacc
      by_cases hlt : dt.getD n 0 < acc.2
      · have hstep : scanStep dt acc n = (n, dt.getD n 0) := by
          unfold scanStep
          rw [if_pos hlt]
        rw [hstep]
        refine ⟨by omega, rfl, ?_, ?_⟩
        · intro j hj
          rcases Nat.lt_succ_iff_lt_or_eq.mp hj with hj | hj
          · exact le_of_lt (lt_of_lt_of_le hlt (ih3 j hj))
          · exact le_of_eq (by rw [hj])
        · intro j hj
          exact lt_of_lt_of_le hlt (ih3 j hj)
      · have hstep : scanStep dt acc n = acc := by
          unfold scanStep
          rw [if_neg hlt]
        rw [hstep]
        refine ⟨ih1, ih2, ?_, ih4⟩
        intro j hj
        rcases Nat.lt_succ_iff_lt_or_eq.mp hj with hj | hj
        · exact ih3 j hj
        · subst hj; exact le_of_not_lt hlt

/-- The scan of `add` returns the least index attaining the minimum of the
phase-load counters. -/
theorem minIdxScan_spec (dt : List Int) (h0 : 0 < dt.length) :
    (minIdxScan dt).1 < dt.length ∧
      (∀ j, j < dt.length → dt.getD (minIdxScan dt).1 0 ≤ dt.getD j 0) ∧
      (∀ j, j < (minIdxScan dt).1 → dt.getD (minIdxScan dt).1 0 < dt.getD j 0) := by
  unfold minIdxScan
  obtain ⟨h1, h2, h3, h4⟩ := scanFold_inv dt h0 dt.length (le_refl _)
  refine ⟨h1, ?_, ?_⟩
  · intro j hj
    rw [← h2]
    exact h3 j hj
  · intro j hj
    rw [← h2]
    exact h4 j hj

theorem tilesOcc_iff (tiles : List (List (Option Nat))) (id : Nat) :
    tilesOcc tiles id = true ↔ ∃ t, t ∈ tiles ∧ some id ∈ t := by
  simp [tilesOcc, List.any_eq_true]

theorem mem_insertIntoTile (id : Nat) (c : Option Nat) :
    ∀ t, c ∈ insertIntoTile t id → c = some id ∨ c ∈ t := by
  intro t
  induction t with
  | nil =>
      intro h
      simp [insertIntoTile] at h
      exact Or.inl h
  | cons a rest ih =>
      cases a with
      | none =>
          intro h
          rcases List.mem_cons.mp h with h | h
          · exact Or.inl h
          · exact Or.inr (List.mem_cons_of_mem _ h)
      | some v =>
          intro h
          rcases List.mem_cons.mp h with h | h
          · exact Or.inr (h ▸ List.mem_cons_self _ _)
          · rcases ih h with h | h
            · exact Or.inl h
            · exact Or.inr (List.mem_cons_of_mem _ h)

theorem mem_removeFromTile (id : Nat) (c : Option Nat) (t : List (Option Nat)) :
    c ∈ removeFromTile t id → c = none ∨ c ∈ t := by
  intro h
  simp only [removeFromTile, List.mem_map] at h
  obtain ⟨d, hd, hc⟩ := h
  by_cases hdid : d = some id
  · simp [hdid] at hc
    exact Or.inl hc.symm
  · simp [hdid] at hc
    exact Or.inr (hc ▸ hd)

/-- The tile the storage indexes at `ti` is either a member of the storage or
the out-of-range default. -/
theorem getD_mem_or_default (tiles : List (List (Option Nat))) (ti : Nat) :
    tiles.getD ti [] ∈ tiles ∨ tiles.getD ti [] = [] := by
  by_cases h : ti < tiles.length
  · left
    rw [List.getD_eq_getElem tiles [] h]
    exact List.getElem_mem h
  · right
    simp [List.getD_eq_getElem?_getD, List.getElem?_eq_none (Nat.le_of_not_lt h)]

theorem tilesOcc_set_insert (tiles : List (List (Option Nat))) (ti id j : Nat) :
    tilesOcc (tiles.set ti (insertIntoTile (tiles.getD ti []) id)) j = true →
      j = id ∨ tilesOcc tiles j = true := by
  intro h
  rw [tilesOcc_iff] at h
  obtain ⟨t, ht, hmem⟩ := h
  rcases List.mem_or_eq_of_mem_set ht with ht | ht
  · exact Or.inr ((tilesOcc_iff tiles j).mpr ⟨t, ht, hmem⟩)
  · subst ht
    rcases mem_insertIntoTile id (some j) _ hmem with h | h
    · exact Or.inl (Option.some.inj h)
    · rcases getD_mem_or_default tiles ti with hd | hd
      · exact Or.inr ((tilesOcc_iff tiles j).mpr ⟨_, hd, h⟩)
      · rw [hd] at h
        exact absurd h (List.not_mem_nil _)

theorem tilesOcc_set_remove (tiles : List (List (Option Nat))) (ti id j : Nat) :
    tilesOcc (tiles.set ti (removeFromTile (tiles.getD ti []) id)) j = true →
      tilesOcc tiles j = true := by
  intro h
  rw [tilesOcc_iff] at h
  obtain ⟨t, ht, hmem⟩ := h
  rcases List.mem_or_eq_of_mem_set ht with ht | ht
  · exact (tilesOcc_iff tiles j).mpr ⟨t, ht, hmem⟩
  · subst ht
    rcases mem_removeFromTile id (some j) _ hmem with h | h
    · exact absurd h (by simp)
    · rcases getD_mem_or_default tiles ti with hd | hd
      · exact (tilesOcc_iff tiles j).mpr ⟨_, hd, h⟩
      · rw [hd] at h
        exact absurd h (List.not_mem_nil _)

theorem stampOf_updateSeed_self (w : World) (id : Nat) (s : Seed) :
    stampOf (updateSeed w id s) id = (stampOf w id).map (fun _ => s.tickMod) := by
  simp [stampOf, lookupSeed, updateSeed, findSeed_set_self, Option.map_map]
  rfl

theorem stampOf_updateSeed_ne (w : World) (id j : Nat) (s : Seed)
    (hne : j ≠ id) : stampOf (updateSeed w id s) j = stampOf w j := by
  simp [stampOf, lookupSeed, updateSeed, findSeed_set_ne id j s hne]

/-- Updating a seed object with unchanged `tickIndex` preserves, for every
id, the existence and phase index of the looked-up record. -/
theorem lookup_update_keep (w : World) (id : Nat) (seed s : Seed)
    (hl : lookupSeed w id = some seed) (hti : s.tickIndex = seed.tickIndex) :
    ∀ j t, lookupSeed (updateSeed w id s) j = some t →
      ∃ u, lookupSeed w j = some u ∧ t.tickIndex = u.tickIndex := by
  intro j t h
  by_cases hj : j = id
  · subst hj
    rw [lookupSeed, updateSeed] at h
    rw [findSeed_set_self] at h
    rw [lookupSeed] at hl
    rw [hl] at h
    simp at h
    exact ⟨seed, hl, by rw [← h, hti]⟩
  · rw [lookupSeed, updateSeed, findSeed_set_ne id j s hj] at h
    exact ⟨t, h, rfl⟩

theorem marryTeardown_eq_none (w : World) (id : Nat) (seed : Seed)
    (h : seed.relationSeed = none) :
    marryTeardown w id seed =
      updateSeed w id { seed with married := false, relationSeed := none } := by
  unfold marryTeardown
  rw [h]

theorem marryTeardown_eq_some (w : World) (id : Nat) (seed : Seed) (pid : Nat)
    (h : seed.relationSeed = some pid) :
    marryTeardown w id seed =
      match lookupSeed
          (updateSeed w id { seed with married := false, relationSeed := none })
          pid with
      | none =>
          updateSeed w id { seed with married := false, relationSeed := none }
      | some p =>
          updateSeed
            (updateSeed w id { seed with married := false, relationSeed := none })
            pid { p with married := false, relationSeed := none } := by
  unfold marryTeardown
  rw [h]

theorem lookup_marryTeardown_keep (w : World) (id : Nat) (seed : Seed)
    (hl : lookupSeed w id = some seed) :
    ∀ j t, lookupSeed (marryTeardown w id seed) j = some t →
      ∃ u, lookupSeed w j = some u ∧ t.tickIndex = u.tickIndex := by
  intro j t h
  cases hrel : seed.relationSeed with
  | none =>
      rw [marryTeardown_eq_none w id seed hrel] at h
      exact lookup_update_keep w id seed
        { seed with married := false, relationSeed := none } hl rfl j t h
  | some pid =>
      rw [marryTeardown_eq_some w id seed pid hrel] at h
      cases hp : lookupSeed
          (updateSeed w id { seed with married := false, relationSeed := none })
          pid with
      | none =>
          rw [hp] at h
          exact lookup_update_keep w id seed
            { seed with married := false, relationSeed := none } hl rfl j t h
      | some p =>
          rw [hp] at h
          obtain ⟨u1, hu1, ht1⟩ :=
            lookup_update_keep
              (updateSeed w id { seed with married := false, relationSeed := none })
              pid p { p with married := false, relationSeed := none } hp rfl j t h
          obtain ⟨u2, hu2, ht2⟩ :=
            lookup_update_keep w id seed
              { seed with married := false, relationSeed := none } hl rfl j u1 hu1
          exact ⟨u2, hu2, by rw [ht1, ht2]⟩

/-- Forward transfer: a seed object present before an in-place update is
still present with the same phase index afterwards. -/
theorem lookup_update_fwd (w : World) (id : Nat) (seed s : Seed)
    (hl : lookupSeed w id = some seed) (hti : s.tickIndex = seed.tickIndex) :
    ∀ j u, lookupSeed w j = some u →
      ∃ t, lookupSeed (updateSeed w id s) j = some t ∧ t.tickIndex = u.tickIndex := by
  intro j u h
  by_cases hj : j = id
  · subst hj
    have hu : u = seed := by
      rw [h] at hl
      exact Option.some.inj hl
    refine ⟨s, ?_, by rw [hti, hu]⟩
    rw [lookupSeed, updateSeed, findSeed_set_self]
    rw [lookupSeed] at h
    rw [h]
    rfl
  · refine ⟨u, ?_, rfl⟩
    rw [lookupSeed, updateSeed, findSeed_set_ne id j s hj]
    exact h

theorem lookup_marryTeardown_fwd (w : World) (id : Nat) (seed : Seed)
    (hl : lookupSeed w id = some seed) :
    ∀ j u, lookupSeed w j = some u →
      ∃ t, lookupSeed (marryTeardown w id seed) j = some t ∧
        t.tickIndex = u.tickIndex := by
  intro j u h
  cases hrel : seed.relationSeed with
  | none =>
      rw [marryTeardown_eq_none w id seed hrel]
      exact lookup_update_fwd w id seed
        { seed with married := false, relationSeed := none } hl rfl j u h
  | some pid =>
      rw [marryTeardown_eq_some w id seed pid hrel]
      cases hp : lookupSeed
          (updateSeed w id { seed with married := false, relationSeed := none })
          pid with
      | none =>
          exact lookup_update_fwd w id seed
            { seed with married := false, relationSeed := none } hl rfl j u h
      | some p =>
          obtain ⟨t1, ht1, hi1⟩ :=
            lookup_update_fwd w id seed
              { seed with married := false, relationSeed := none } hl rfl j u h
          obtain ⟨t2, ht2, hi2⟩ :=
            lookup_update_fwd
              (updateSeed w id { seed with married := false, relationSeed := none })
              pid p { p with married := false, relationSeed := none } hp rfl j t1 ht1
          exact ⟨t2, ht2, by rw [hi2, hi1]⟩

theorem remove_eq_none (w : World) (id : Nat)
    (hl : lookupSeed w id = none) : remove id w = w := by
  unfold remove
  rw [hl]

theorem remove_eq_some (w : World) (id : Nat) (seed : Seed)
    (hl : lookupSeed w id = some seed) :
    remove id w =
      (let w1 := { w with statPopulation := w.statPopulation - 1 }
       let w2 := if seed.married then marryTeardown w1 id seed else w1
       let w3 := tileRemAt w2 seed.tileIndex id
       { w3 with
          distributedTicks := listDecAt w3.distributedTicks seed.tickIndex }) := by
  unfold remove
  rw [hl]

/-- The fields of the world that the marriage teardown leaves untouched. -/
theorem marryTeardown_frame (w : World) (id : Nat) (seed : Seed) :
    (marryTeardown w id seed).nextSeedId = w.nextSeedId ∧
      (marryTeardown w id seed).distributedTicks = w.distributedTicks ∧
      (marryTeardown w id seed).tiles = w.tiles ∧
      (marryTeardown w id seed).statPopulation = w.statPopulation ∧
      (marryTeardown w id seed).tickPerYear = w.tickPerYear := by
  cases hrel : seed.relationSeed with
  | none =>
      rw [marryTeardown_eq_none w id seed hrel]
      exact ⟨rfl, rfl, rfl, rfl, rfl⟩
  | some pid =>
      rw [marryTeardown_eq_some w id seed pid hrel]
      cases lookupSeed
          (updateSeed w id { seed with married := false, relationSeed := none })
          pid with
      | none => exact ⟨rfl, rfl, rfl, rfl, rfl⟩
      | some p => exact ⟨rfl, rfl, rfl, rfl, rfl⟩

theorem marryTeardown_keys (w : World) (id : Nat) (seed : Seed) :
    ∀ p ∈ (marryTeardown w id seed).seeds, ∃ q, q ∈ w.seeds ∧ p.1 = q.1 := by
  intro p
  cases hrel : seed.relationSeed with
  | none =>
      rw [marryTeardown_eq_none w id seed hrel]
      intro hp
      exact setSeedFields_keys id _ _ p hp
  | some pid =>
      rw [marryTeardown_eq_some w id seed pid hrel]
      cases lookupSeed
          (updateSeed w id { seed with married := false, relationSeed := none })
          pid with
      | none =>
          intro hp
          exact setSeedFields_keys id _ _ p hp
      | some q =>
          intro hp
          obtain ⟨r, hr, hk⟩ := setSeedFields_keys pid _ _ p hp
          obtain ⟨r2, hr2, hk2⟩ := setSeedFields_keys id _ _ r hr
          exact ⟨r2, hr2, by rw [hk, hk2]⟩

theorem lookup_remove_keep (w : World) (id : Nat) :
    ∀ j t, lookupSeed (remove id w) j = some t →
      ∃ u, lookupSeed w j = some u ∧ t.tickIndex = u.tickIndex := by
  intro j t h
  rw [remove] at h
  cases hl : lookupSeed w id with
  | none =>
      rw [hl] at h
      exact ⟨t, h, rfl⟩
  | some seed =>
      rw [hl] at h
      by_cases hm : seed.married
      · simp only [hm, if_pos] at h
        have hl1 : lookupSeed
            { w with statPopulation := w.statPopulation - 1 } id = some seed := hl
        exact lookup_marryTeardown_keep _ id seed hl1 j t h
      · simp only [hm, if_neg, Bool.false_eq_true, not_false_iff] at h
        exact ⟨t, h, rfl⟩

theorem lookup_remove_fwd (w : World) (id : Nat) :
    ∀ j u, lookupSeed w j = some u →
      ∃ t, lookupSeed (remove id w) j = some t ∧ t.tickIndex = u.tickIndex := by
  intro j u h
  cases hl : lookupSeed w id with
  | none =>
      rw [remove_eq_none w id hl]
      exact ⟨u, h, rfl⟩
  | some seed =>
      rw [remove_eq_some w id seed hl]
      by_cases hm : seed.married
      · simp only [hm, if_pos]
        exact lookup_marryTeardown_fwd
          { w with statPopulation := w.statPopulation - 1 } id seed hl j u h
      · simp only [hm, Bool.false_eq_true, if_neg, not_false_iff]
        exact ⟨u, h, rfl⟩

theorem remove_nextSeedId (w : World) (id : Nat) :
    (remove id w).nextSeedId = w.nextSeedId := by
  cases hl : lookupSeed w id with
  | none => rw [remove_eq_none w id hl]
  | some seed =>
      rw [remove_eq_some w id seed hl]
      by_cases hm : seed.married
      · simp only [hm, if_pos]
        exact (marryTeardown_frame
          { w with statPopulation := w.statPopulation - 1 } id seed).1
      · simp only [hm, Bool.false_eq_true, if_neg, not_false_iff]
        rfl

theorem remove_statPopulation (w : World) (id : Nat) (seed : Seed)
    (hl : lookupSeed w id = some seed) :
    (remove id w).statPopulation = w.statPopulation - 1 := by
  rw [remove_eq_some w id seed hl]
  by_cases hm : seed.married
  · simp only [hm, if_pos]
    exact (marryTeardown_frame
      { w with statPopulation := w.statPopulation - 1 } id seed).2.2.2.1
  · simp only [hm, Bool.false_eq_true, if_neg, not_false_iff]
    rfl

theorem remove_distributedTicks (w : World) (id : Nat) (seed : Seed)
    (hl : lookupSeed w id = some seed) :
    (remove id w).distributedTicks = listDecAt w.distributedTicks seed.tickIndex := by
  rw [remove_eq_some w id seed hl]
  by_cases hm : seed.married
  · simp only [hm, if_pos]
    rw [show (tileRemAt (marryTeardown
        { w with statPopulation := w.statPopulation - 1 } id seed)
        seed.tileIndex id).distributedTicks =
        (marryTeardown { w with statPopulation := w.statPopulation - 1 } id
          seed).distributedTicks from rfl]
    rw [(marryTeardown_frame
      { w with statPopulation := w.statPopulation - 1 } id seed).2.1]
  · simp only [hm, Bool.false_eq_true, if_neg, not_false_iff]
    rfl

theorem remove_occupies (w : World) (id j : Nat) (seed : Seed)
    (hl : lookupSeed w id = some seed)
    (h : occupiesTile (remove id w) j = true) : occupiesTile w j = true := by
  rw [remove_eq_some w id seed hl] at h
  by_cases hm : seed.married
  · simp only [hm, if_pos] at h
    have hmt := (marryTeardown_frame
      { w with statPopulation := w.statPopulation - 1 } id seed).2.2.1
    rw [occupiesTile] at h
    rw [show (tileRemAt (marryTeardown
        { w with statPopulation := w.statPopulation - 1 } id seed)
        seed.tileIndex id).tiles =
        (marryTeardown { w with statPopulation := w.statPopulation - 1 } id
          seed).tiles.set seed.tileIndex
          (removeFromTile ((marryTeardown
            { w with statPopulation := w.statPopulation - 1 } id
              seed).tiles.getD seed.tileIndex []) id) from rfl] at h
    rw [hmt] at h
    exact tilesOcc_set_remove w.tiles seed.tileIndex id j h
  · simp only [hm, Bool.false_eq_true, if_neg, not_false_iff] at h
    exact tilesOcc_set_remove w.tiles seed.tileIndex id j h

theorem remove_keys (w : World) (id : Nat) :
    ∀ p ∈ (remove id w).seeds, ∃ q, q ∈ w.seeds ∧ p.1 = q.1 := by
  intro p hp
  revert hp
  cases hl : lookupSeed w id with
  | none =>
      rw [remove_eq_none w id hl]
      intro hp
      exact ⟨p, hp, rfl⟩
  | some seed =>
      rw [remove_eq_some w id seed hl]
      by_cases hm : seed.married
      · simp only [hm, if_pos]
        intro hp
        exact marryTeardown_keys
          { w with statPopulation := w.statPopulation - 1 } id seed p hp
      · simp only [hm, Bool.false_eq_true, if_neg, not_false_iff]
        intro hp
        exact ⟨p, hp, rfl⟩

theorem addBuild_nextSeedId (kind : SKind) (data : SeedData) (w : World) :
    (addBuild kind data w).2.nextSeedId = w.nextSeedId + 1 := by
  rcases data with ⟨da, dtc, dx, dy⟩
  cases dx <;> cases dy <;> rfl

theorem addBuild_statPopulation (kind : SKind) (data : SeedData) (w : World) :
    (addBuild kind data w).2.statPopulation = w.statPopulation + 1 := by
  rcases data with ⟨da, dtc, dx, dy⟩
  cases dx <;> cases dy <;> rfl

theorem addBuild_tickMod (kind : SKind) (data : SeedData) (w : World) :
    (addBuild kind data w).2.tickMod = w.tickMod := by
  rcases data with ⟨da, dtc, dx, dy⟩
  cases dx <;> cases dy <;> rfl

theorem addBuild_tickPerYear (kind : SKind) (data : SeedData) (w : World) :
    (addBuild kind data w).2.tickPerYear = w.tickPerYear := by
  rcases data with ⟨da, dtc, dx, dy⟩
  cases dx <;> cases dy <;> rfl

theorem addBuild_distributedTicks (kind : SKind) (data : SeedData) (w : World) :
    (addBuild kind data w).2.distributedTicks =
      listIncAt w.distributedTicks (minIdxScan w.distributedTicks).1 := by
  rcases data with ⟨da, dtc, dx, dy⟩
  cases dx <;> cases dy <;> rfl

theorem addBuild_seeds (kind : SKind) (data : SeedData) (w : World) :
    (addBuild kind data w).2.seeds =
      w.seeds ++ [(w.nextSeedId, (addBuild kind data w).1)] := by
  rcases data with ⟨da, dtc, dx, dy⟩
  cases dx <;> cases dy <;> rfl

theorem addBuild_seed_id (kind : SKind) (data : SeedData) (w : World) :
    (addBuild kind data w).1.id = w.nextSeedId := by
  rcases data with ⟨da, dtc, dx, dy⟩
  cases dx <;> cases dy <;> rfl

theorem addBuild_seed_tickIndex (kind : SKind) (data : SeedData) (w : World) :
    (addBuild kind data w).1.tickIndex = (minIdxScan w.distributedTicks).1 := by
  rcases data with ⟨da, dtc, dx, dy⟩
  cases dx <;> cases dy <;> rfl

theorem addBuild_occupies (kind : SKind) (data : SeedData) (w : World) (j : Nat)
    (h : occupiesTile (addBuild kind data w).2 j = true) :
    j = w.nextSeedId ∨ occupiesTile w j = true := by
  revert h
  rcases data with ⟨da, dtc, dx, dy⟩
  cases dx <;> cases dy <;>
    · intro h
      exact tilesOcc_set_insert w.tiles _ w.nextSeedId j h

/-- Admission preserves the lifecycle bookkeeping invariant. -/
theorem lifeInv_add (kind : SKind) (data : SeedData) (w : World)
    (h : LifeInv w) : LifeInv (add kind data w) := by
  obtain ⟨hlen, hkeys, hsum, hocc⟩ := h
  have hm : (minIdxScan w.distributedTicks).1 < w.distributedTicks.length :=
    (minIdxScan_spec w.distributedTicks hlen).1
  refine ⟨?_, ?_, ?_, ?_⟩
  · rw [add, addBuild_distributedTicks, length_listIncAt]
    exact hlen
  · intro p hp
    rw [add, addBuild_nextSeedId]
    rw [add, addBuild_seeds] at hp
    rcases List.mem_append.mp hp with hp | hp
    · exact Nat.lt_succ_of_lt (hkeys p hp)
    · have : p = (w.nextSeedId, (addBuild kind data w).1) := by
        simpa using hp
      rw [this]
      exact Nat.lt_succ_self _
  · rw [add, addBuild_distributedTicks, addBuild_statPopulation,
      sum_listIncAt w.distributedTicks _ hm, hsum]
  · intro j hj
    rw [add] at hj ⊢
    rcases addBuild_occupies kind data w j hj with hj | hj
    · subst hj
      refine ⟨(addBuild kind data w).1, ?_, ?_⟩
      · rw [lookupSeed, addBuild_seeds]
        rw [findSeed_append_none _ _ _
          (findSeed_none_of_keys _ _ (fun p hp => Nat.ne_of_lt (hkeys p hp)))]
        simp [findSeed]
      · rw [addBuild_seed_tickIndex, addBuild_distributedTicks, length_listIncAt]
        exact hm
    · obtain ⟨u, hu, hlt⟩ := hocc j hj
      refine ⟨u, ?_, ?_⟩
      · rw [lookupSeed, addBuild_seeds]
        exact findSeed_append_some _ _ _ _ hu
      · rw [addBuild_distributedTicks, length_listIncAt]
        exact hlt

/-- Eviction of a live seed preserves the lifecycle bookkeeping invariant. -/
theorem lifeInv_remove (id : Nat) (w : World) (h : LifeInv w)
    (hoc : occupiesTile w id = true) : LifeInv (remove id w) := by
  obtain ⟨hlen, hkeys, hsum, hocc⟩ := h
  obtain ⟨s, hls, hts⟩ := hocc id hoc
  refine ⟨?_, ?_, ?_, ?_⟩
  · rw [remove_distributedTicks w id s hls, length_listDecAt]
    exact hlen
  · intro p hp
    rw [remove_nextSeedId]
    obtain ⟨q, hq, hk⟩ := remove_keys w id p hp
    rw [hk]
    exact hkeys q hq
  · rw [remove_distributedTicks w id s hls, remove_statPopulation w id s hls,
      sum_listDecAt w.distributedTicks _ hts, hsum]
  · intro j hj
    have hjw := remove_occupies w id j s hls hj
    obtain ⟨u, hu, hlt⟩ := hocc j hjw
    obtain ⟨t, ht, hti⟩ := lookup_remove_fwd w id j u hu
    refine ⟨t, ht, ?_⟩
    rw [remove_distributedTicks w id s hls, length_listDecAt, hti]
    exact hlt

/-- Every lifecycle operation preserves the bookkeeping invariant. -/
theorem lifeInv_applyOp (w : World) (op : WOp) (h : LifeInv w) :
    LifeInv (applyOp w op) := by
  cases op with
  | addOp kind data => exact lifeInv_add kind data w h
  | removeOp id =>
      by_cases hoc : occupiesTile w id = true
      · rw [applyOp, if_pos hoc]
        exact lifeInv_remove id w h hoc
      · rw [applyOp, if_neg hoc]
        exact h

theorem lifeInv_applyOps (ops : List WOp) (w : World) (h : LifeInv w) :
    LifeInv (applyOps w ops) :=
  foldl_pres applyOp LifeInv lifeInv_applyOp ops w h

theorem stampOf_tileSetAt (w : World) (ti id x : Nat) :
    stampOf (tileSetAt w ti id) x = stampOf w x := rfl

theorem stampOf_tileRemAt (w : World) (ti id x : Nat) :
    stampOf (tileRemAt w ti id) x = stampOf w x := rfl

/-- Stamping (and aging) a visited seed whose stamp differed from the
current counter preserves the exactly-once bookkeeping: the seed was not in
the invocation log, and afterwards it is logged and stamped. -/
theorem stampInv_stampWorld (w : World) (id : Nat) (seed : Seed) (yp : Bool)
    (hseed : lookupSeed w id = some seed) (hsk : ¬ seed.tickMod = w.tickMod)
    (h : StampInv w) : StampInv (stampWorld w id seed yp) := by
  obtain ⟨hnd, hst⟩ := h
  have hid_notin : id ∉ w.tickLog := by
    intro hmem
    have h1 := hst id hmem
    rw [stampOf, hseed] at h1
    simp at h1
    exact hsk h1
  constructor
  · show (w.tickLog ++ [id]).Nodup
    simp [List.nodup_append, hnd, hid_notin]
  · intro x hx
    have hx' : x ∈ w.tickLog ++ [id] := hx
    show stampOf (updateSeed w id (stampedSeed w seed yp)) x = some w.tickMod
    by_cases hxid : x = id
    · subst hxid
      rw [stampOf_updateSeed_self, stampOf, hseed]
      rfl
    · rw [stampOf_updateSeed_ne _ _ _ _ hxid]
      rcases List.mem_append.mp hx' with hx1 | hx1
      · exact hst x hx1
      · simp at hx1
        exact absurd hx1 hxid

/-- The behavior collaborator preserves the exactly-once bookkeeping. -/
theorem stampInv_beh (beh : Nat → World → World) (hb : BehOk beh) (id : Nat)
    (w : World) (h : StampInv w) : StampInv (beh id w) := by
  obtain ⟨hnd, hst⟩ := h
  constructor
  · rw [hb.tickLog_eq]
    exact hnd
  · intro x hx
    rw [hb.tickLog_eq] at hx
    rw [hb.tickMod_eq]
    exact hb.stamp_stable id w x (hst x hx)

/-- Tile reconciliation preserves the exactly-once bookkeeping. -/
theorem stampInv_relocateSeed (w2 : World) (id : Nat) (seedA : Seed)
    (hA : lookupSeed w2 id = some seedA) (hid : id ∈ w2.tickLog)
    (h : StampInv w2) (oldTi : Nat) :
    StampInv (relocateSeed w2 id seedA oldTi) := by
  obtain ⟨hnd, hst⟩ := h
  have hAstamp : seedA.tickMod = w2.tickMod := by
    have h1 := hst id hid
    rw [stampOf, hA] at h1
    simpa using h1
  unfold relocateSeed
  dsimp only
  split
  · exact ⟨hnd, hst⟩
  · constructor
    · exact hnd
    · intro x hx
      have hx2 : x ∈ w2.tickLog := hx
      by_cases hxid : x = id
      · subst hxid
        rw [stampOf_tileSetAt, stampOf_updateSeed_self, stampOf_tileRemAt,
          stampOf, hA]
        show some seedA.tickMod = some w2.tickMod
        rw [hAstamp]
      · rw [stampOf_tileSetAt, stampOf_updateSeed_ne _ _ _ _ hxid,
          stampOf_tileRemAt]
        exact hst x hx2

/-- Every slot visit preserves the exactly-once bookkeeping. -/
theorem slotStep_stampInv (beh : Nat → World → World) (hb : BehOk beh)
    (yp : Bool) (i : Nat) (p : World × Agg) (j : Nat) (h : StampInv p.1) :
    StampInv (slotStep beh yp i p j).1 := by
  unfold slotStep
  split
  · exact h
  next id hslot =>
    split
    · exact h
    next seed hseed =>
      split
      · exact h
      next hsk =>
        have hbase : StampInv (stampWorld p.1 id seed yp) :=
          stampInv_stampWorld p.1 id seed yp hseed hsk h
        have hbeh : StampInv (beh id (stampWorld p.1 id seed yp)) :=
          stampInv_beh beh hb id _ hbase
        have hid : id ∈ (beh id (stampWorld p.1 id seed yp)).tickLog := by
          rw [hb.tickLog_eq]
          show id ∈ p.1.tickLog ++ [id]
          exact List.mem_append_right _ (List.mem_singleton.mpr rfl)
        dsimp only
        cases hA : lookupSeed (beh id (stampWorld p.1 id seed yp)) id with
        | none => exact hbeh
        | some seedA =>
            exact stampInv_relocateSeed _ id seedA hA hid hbeh seed.tileIndex

theorem tileStep_stampInv (beh : Nat → World → World) (hb : BehOk beh)
    (yp : Bool) (p : World × Agg) (i : Nat) (h : StampInv p.1) :
    StampInv (tileStep beh yp p i).1 := by
  unfold tileStep
  exact foldl_pres (slotStep beh yp i) (fun q => StampInv q.1)
    (fun q a hq => slotStep_stampInv beh hb yp i q a hq) _ p h

theorem runLoop_stampInv (beh : Nat → World → World) (hb : BehOk beh)
    (yp : Bool) (w : World) (h : StampInv w) : StampInv (runLoop beh yp w).1 := by
  unfold runLoop
  exact foldl_pres (tileStep beh yp) (fun q => StampInv q.1)
    (fun q a hq => tileStep_stampInv beh hb yp q a hq) _ (w, aggZero) h

theorem stampInv_finishTick (w : World) (h : StampInv w) :
    StampInv (finishTick w) := by
  unfold finishTick
  split
  · exact h
  · split <;> exact h

/-- A full tick preserves (in fact establishes, since the invocation log is
reset at tick entry) the exactly-once bookkeeping. -/
theorem run_stampInv (beh : Nat → World → World) (hb : BehOk beh) (w : World) :
    StampInv (run beh w) := by
  have h0 : StampInv (preTick w) := by
    constructor
    · exact List.nodup_nil
    · intro x hx
      exact absurd hx (List.not_mem_nil x)
  have h1 := runLoop_stampInv beh hb ((preTick w).tickMod == 0) (preTick w) h0
  unfold run
  dsimp only
  split
  · split
    · exact h1
    · exact stampInv_finishTick _ h1
  · exact stampInv_finishTick _ h1

theorem lifeInv_worldNew (width height : Int) (rng : List Nat) :
    LifeInv (worldNew width height rng) := by
  refine ⟨by simp [worldNew], ?_, by simp [worldNew], ?_⟩
  · intro p hp
    exact absurd hp (List.not_mem_nil p)
  · intro id hid
    rw [worldNew] at hid
    rw [occupiesTile] at hid
    rw [tilesOcc_iff] at hid
    obtain ⟨t, ht, hmem⟩ := hid
    rw [tilesInit] at ht
    rw [List.eq_of_mem_replicate ht] at hmem
    exact absurd hmem (List.not_mem_nil _)

/-- The moving behavior satisfies the collaborator frame conditions. -/
theorem behMoveRight_ok : BehOk behMoveRight := by
  have hfield : ∀ (α : Type) (f : World → α) (id : Nat) (w : World),
      (∀ i s, f (updateSeed w i s) = f w) → f (behMoveRight id w) = f w := by
    intro α f id w hf
    unfold behMoveRight
    cases lookupSeed w id with
    | none => rfl
    | some s => exact hf id _
  refine ⟨?_, ?_, ?_, ?_, ?_, ?_, ?_, ?_, ?_, ?_⟩
  · intro id w; exact hfield _ World.running id w (fun _ _ => rfl)
  · intro id w; exact hfield _ World.stopCallback id w (fun _ _ => rfl)
  · intro id w; exact hfield _ World.stopLog id w (fun _ _ => rfl)
  · intro id w; exact hfield _ World.tickMod id w (fun _ _ => rfl)
  · intro id w; exact hfield _ World.tickPerYear id w (fun _ _ => rfl)
  · intro id w; exact hfield _ World.yearEvents id w (fun _ _ => rfl)
  · intro id w; exact hfield _ World.lastYearPassed id w (fun _ _ => rfl)
  · intro id w; exact hfield _ World.scheduledNext id w (fun _ _ => rfl)
  · intro id w; exact hfield _ World.tickLog id w (fun _ _ => rfl)
  · intro id w j hst
    unfold behMoveRight
    cases hl : lookupSeed w id with
    | none => exact hst
    | some s =>
        by_cases hj : j = id
        · subst hj
          rw [stampOf_updateSeed_self]
          rw [stampOf, hl] at hst ⊢
          simp at hst
          simp [hst]
        · rw [stampOf_updateSeed_ne _ _ _ _ hj]
          exact hst

theorem getD_set_ne (l : List Int) (i j : Nat) (v : Int) (h : j ≠ i) :
    (l.set i v).getD j 0 = l.getD j 0 := by
  rw [List.getD_eq_getElem?_getD, List.getD_eq_getElem?_getD,
    List.getElem?_set_ne (fun hc => h hc.symm)]

theorem getD_set_self (l : List Int) (i : Nat) (v : Int) (h : i < l.length) :
    (l.set i v).getD i 0 = v := by
  rw [List.getD_eq_getElem?_getD, List.getElem?_set_self h]
  rfl

theorem ctrlEq_refl (a : World) : CtrlEq a a :=
  ⟨rfl, rfl, rfl, rfl, rfl, rfl, rfl, rfl⟩

theorem ctrlEq_trans {a b c : World} (h1 : CtrlEq a b) (h2 : CtrlEq b c) :
    CtrlEq a c := by
  obtain ⟨x1, x2, x3, x4, x5, x6, x7, x8⟩ := h1
  obtain ⟨y1, y2, y3, y4, y5, y6, y7, y8⟩ := h2
  exact ⟨x1.trans y1, x2.trans y2, x3.trans y3, x4.trans y4, x5.trans y5,
    x6.trans y6, x7.trans y7, x8.trans y8⟩

theorem ctrlEq_beh (beh : Nat → World → World) (hb : BehOk beh) (id : Nat)
    (w : World) : CtrlEq (beh id w) w :=
  ⟨hb.running_eq id w, hb.stopCallback_eq id w, hb.stopLog_eq id w,
    hb.tickMod_eq id w, hb.tickPerYear_eq id w, hb.yearEvents_eq id w,
    hb.lastYearPassed_eq id w, hb.scheduledNext_eq id w⟩

theorem ctrlEq_relocateSeed (w2 : World) (id : Nat) (seedA : Seed)
    (oldTi : Nat) : CtrlEq (relocateSeed w2 id seedA oldTi) w2 := by
  unfold relocateSeed
  dsimp only
  split
  · exact ctrlEq_refl _
  · exact ⟨rfl, rfl, rfl, rfl, rfl, rfl, rfl, rfl⟩

theorem ctrlEq_slotStep (beh : Nat → World → World) (hb : BehOk beh)
    (yp : Bool) (i : Nat) (p : World × Agg) (j : Nat) :
    CtrlEq (slotStep beh yp i p j).1 p.1 := by
  unfold slotStep
  split
  · exact ctrlEq_refl _
  next id hslot =>
    split
    · exact ctrlEq_refl _
    next seed hseed =>
      split
      · exact ctrlEq_refl _
      next hsk =>
        dsimp only
        have hstamp : CtrlEq (stampWorld p.1 id seed yp) p.1 :=
          ⟨rfl, rfl, rfl, rfl, rfl, rfl, rfl, rfl⟩
        have hbeh : CtrlEq (beh id (stampWorld p.1 id seed yp)) p.1 :=
          ctrlEq_trans (ctrlEq_beh beh hb id _) hstamp
        cases hA : lookupSeed (beh id (stampWorld p.1 id seed yp)) id with
        | none => exact hbeh
        | some seedA =>
            exact ctrlEq_trans
              (ctrlEq_relocateSeed (beh id (stampWorld p.1 id seed yp)) id
                seedA seed.tileIndex) hbeh

theorem ctrlEq_runLoop (beh : Nat → World → World) (hb : BehOk beh)
    (yp : Bool) (w : World) : CtrlEq (runLoop beh yp w).1 w := by
  unfold runLoop
  refine foldl_pres (tileStep beh yp) (fun q => CtrlEq q.1 w) ?_ _ (w, aggZero)
    (ctrlEq_refl w)
  intro q i hq
  unfold tileStep
  refine foldl_pres (slotStep beh yp i) (fun r => CtrlEq r.1 w) ?_ _ q hq
  intro r j hr
  exact ctrlEq_trans (ctrlEq_slotStep beh hb yp i r j) hr

theorem finishTick_invoke (v : World) (cb : Nat) (h1 : v.running = false)
    (h2 : v.stopCallback = some cb) :
    finishTick v = { v with stopLog := v.stopLog ++ [cb], stopCallback := none } := by
  unfold finishTick
  rw [h1]
  rw [if_neg Bool.false_ne_true]
  rw [h2]

theorem finishTick_noop (v : World) (h1 : v.running = false)
    (h2 : v.stopCallback = none) :
    finishTick v = { v with stopCallback := none } := by
  unfold finishTick
  rw [h1]
  rw [if_neg Bool.false_ne_true]
  rw [h2]

theorem finishTick_schedule (v : World) (h1 : v.running = true) :
    finishTick v = { v with scheduledNext := true } := by
  unfold finishTick
  rw [h1]
  rw [if_pos rfl]

theorem finishTick_tickMod (v : World) : (finishTick v).tickMod = v.tickMod := by
  unfold finishTick
  split
  · rfl
  · split <;> rfl

theorem finishTick_lastYearPassed (v : World) :
    (finishTick v).lastYearPassed = v.lastYearPassed := by
  unfold finishTick
  split
  · rfl
  · split <;> rfl

/-- The tick counter and the year flag after one `run`, for any
frame-respecting behavior. -/
theorem run_counter (beh : Nat → World → World) (hb : BehOk beh) (w : World) :
    (run beh w).tickMod = (w.tickMod + 1) % w.tickPerYear ∧
      (run beh w).lastYearPassed =
        (((w.tickMod + 1) % w.tickPerYear) == 0) := by
  have hloop := ctrlEq_runLoop beh hb ((preTick w).tickMod == 0) (preTick w)
  obtain ⟨-, -, -, hmod, -, -, hlyp, -⟩ := hloop
  unfold run
  dsimp only
  split
  · split
    · exact ⟨hmod, hlyp⟩
    · constructor
      · rw [finishTick_tickMod]
        exact hmod
      · rw [finishTick_lastYearPassed]
        exact hlyp
  · constructor
    · rw [finishTick_tickMod]
      exact hmod
    · rw [finishTick_lastYearPassed]
      exact hlyp

/-- C1: within a single invocation of the tick loop (`run`), no live seed's
per-tick behavior (`seed.tick`) is invoked twice: before invoking a seed's
behavior its `tickMod` stamp is set to the world's current tick counter, and
any seed whose stamp already equals the current counter is skipped, even if
the seed's reference was re-inserted into a not-yet-visited slot of a later
tile during the same pass.  Formally: for every behavior collaborator
respecting the engine frame and every starting world, the
behavior-invocation log of one `run` is duplicate-free, and every seed in
the log carries a stamp equal to the current tick counter. -/
theorem tick_loop_no_double_invoke (beh : Nat → World → World)
    (hb : BehOk beh) (w : World) :
    (run beh w).tickLog.Nodup ∧
      ∀ id ∈ (run beh w).tickLog,
        stampOf (run beh w) id = some (run beh w).tickMod :=
  run_stampInv beh hb w

/-- Witness for C1 at the concrete relocation scenario (`c1World`, a seed
that moves into a vacated slot of a later tile during the pass). -/
theorem tick_loop_no_double_invoke_wit :
    (run behMoveRight c1World).tickLog.Nodup ∧
      ∀ id ∈ (run behMoveRight c1World).tickLog,
        stampOf (run behMoveRight c1World) id =
          some (run behMoveRight c1World).tickMod :=
  tick_loop_no_double_invoke behMoveRight behMoveRight_ok c1World

/-- C2: over every sequence of admissions and evictions (evictions applied
only to live, tile-occupying seeds), the phase-load counters sum to the
population reported by the lifecycle manager to the Statistic collaborator;
moreover an admission increments exactly the minimum-scan counter and an
eviction decrements exactly the counter at the evicted seed's assigned
phase index. -/
theorem phase_load_sum_eq_population :
    (∀ (width height : Int) (rng : List Nat) (ops : List WOp),
      (applyOps (worldNew width height rng) ops).distributedTicks.sum =
        (applyOps (worldNew width height rng) ops).statPopulation) ∧
    (∀ (kind : SKind) (data : SeedData) (w : World),
      (add kind data w).distributedTicks =
        listIncAt w.distributedTicks (minIdxScan w.distributedTicks).1) ∧
    (∀ (id : Nat) (w : World) (s : Seed), lookupSeed w id = some s →
      (remove id w).distributedTicks =
        listDecAt w.distributedTicks s.tickIndex) := by
  refine ⟨?_, ?_, ?_⟩
  · intro width height rng ops
    exact (lifeInv_applyOps ops _ (lifeInv_worldNew width height rng)).2.2.1
  · intro kind data w
    rw [add, addBuild_distributedTicks]
  · intro id w s h
    exact remove_distributedTicks w id s h

/-- Scenario world for C2's witness: one admitted seed. -/
def c2World : World := add SKind.male {} (worldNew 200 100 [])

/-- The seed object admitted into `c2World`. -/
def c2Seed : Seed := (addBuild SKind.male {} (worldNew 200 100 [])).1

/-- Witness for C2: a concrete admit/admit/evict sequence, and the eviction
delta at a concrete live seed. -/
theorem phase_load_sum_eq_population_wit :
    (applyOps (worldNew 200 100 [0, 1, 2, 3, 4, 5])
        [WOp.addOp SKind.male {}, WOp.addOp SKind.female {},
          WOp.removeOp 1]).distributedTicks.sum =
      (applyOps (worldNew 200 100 [0, 1, 2, 3, 4, 5])
        [WOp.addOp SKind.male {}, WOp.addOp SKind.female {},
          WOp.removeOp 1]).statPopulation ∧
    (remove 1 c2World).distributedTicks =
      listDecAt c2World.distributedTicks c2Seed.tickIndex :=
  ⟨phase_load_sum_eq_population.1 200 100 [0, 1, 2, 3, 4, 5]
      [WOp.addOp SKind.male {}, WOp.addOp SKind.female {}, WOp.removeOp 1],
    phase_load_sum_eq_population.2.2 1 c2World c2Seed (by decide)⟩

/-- C3: at admission, the assigned phase index is the least index attaining
the minimum of the phase-load counter array (of length `tickPerYear - 1` as
built by the world constructor); that counter is incremented by one and no
other counter changes; the admitted seed records the assigned index. -/
theorem phase_assignment_min_index (w : World) (kind : SKind) (data : SeedData)
    (hne : w.distributedTicks ≠ [])
    (hkeys : ∀ p ∈ w.seeds, p.1 < w.nextSeedId) :
    ((minIdxScan w.distributedTicks).1 < w.distributedTicks.length ∧
      (∀ j, j < w.distributedTicks.length →
        w.distributedTicks.getD (minIdxScan w.distributedTicks).1 0 ≤
          w.distributedTicks.getD j 0) ∧
      (∀ j, j < (minIdxScan w.distributedTicks).1 →
        w.distributedTicks.getD (minIdxScan w.distributedTicks).1 0 <
          w.distributedTicks.getD j 0)) ∧
    (add kind data w).distributedTicks.getD (minIdxScan w.distributedTicks).1 0 =
      w.distributedTicks.getD (minIdxScan w.distributedTicks).1 0 + 1 ∧
    (∀ j, j ≠ (minIdxScan w.distributedTicks).1 →
      (add kind data w).distributedTicks.getD j 0 =
        w.distributedTicks.getD j 0) ∧
    lookupSeed (add kind data w) w.nextSeedId = some (addBuild kind data w).1 ∧
    (addBuild kind data w).1.tickIndex = (minIdxScan w.distributedTicks).1 ∧
    (∀ (width height : Int) (rng : List Nat),
      (worldNew width height rng).distributedTicks.length =
        (worldNew width height rng).tickPerYear - 1) := by
  have hpos : 0 < w.distributedTicks.length := List.length_pos.mpr hne
  have hm := minIdxScan_spec w.distributedTicks hpos
  refine ⟨hm, ?_, ?_, ?_, addBuild_seed_tickIndex kind data w, fun _ _ _ => rfl⟩
  · rw [add, addBuild_distributedTicks, listIncAt]
    exact getD_set_self _ _ _ hm.1
  · intro j hj
    rw [add, addBuild_distributedTicks, listIncAt, getD_set_ne _ _ _ _ hj]
  · rw [lookupSeed, add, addBuild_seeds]
    rw [findSeed_append_none _ _ _
      (findSeed_none_of_keys _ _ (fun p hp => Nat.ne_of_lt (hkeys p hp)))]
    simp [findSeed]

/-- Witness for C3 at a fresh default world. -/
theorem phase_assignment_min_index_wit :
    ((minIdxScan (worldNew 200 100 []).distributedTicks).1 <
        (worldNew 200 100 []).distributedTicks.length ∧
      (∀ j, j < (worldNew 200 100 []).distributedTicks.length →
        (worldNew 200 100 []).distributedTicks.getD
            (minIdxScan (worldNew 200 100 []).distributedTicks).1 0 ≤
          (worldNew 200 100 []).distributedTicks.getD j 0) ∧
      (∀ j, j < (minIdxScan (worldNew 200 100 []).distributedTicks).1 →
        (worldNew 200 100 []).distributedTicks.getD
            (minIdxScan (worldNew 200 100 []).distributedTicks).1 0 <
          (worldNew 200 100 []).distributedTicks.getD j 0)) ∧
    (add SKind.male {} (worldNew 200 100 [])).distributedTicks.getD
        (minIdxScan (worldNew 200 100 []).distributedTicks).1 0 =
      (worldNew 200 100 []).distributedTicks.getD
        (minIdxScan (worldNew 200 100 []).distributedTicks).1 0 + 1 ∧
    (∀ j, j ≠ (minIdxScan (worldNew 200 100 []).distributedTicks).1 →
      (add SKind.male {} (worldNew 200 100 [])).distributedTicks.getD j 0 =
        (worldNew 200 100 []).distributedTicks.getD j 0) ∧
    lookupSeed (add SKind.male {} (worldNew 200 100 []))
        (worldNew 200 100 []).nextSeedId =
      some (addBuild SKind.male {} (worldNew 200 100 [])).1 ∧
    (addBuild SKind.male {} (worldNew 200 100 [])).1.tickIndex =
      (minIdxScan (worldNew 200 100 []).distributedTicks).1 ∧
    (∀ (width height : Int) (rng : List Nat),
      (worldNew width height rng).distributedTicks.length =
        (worldNew width height rng).tickPerYear - 1) :=
  phase_assignment_min_index (worldNew 200 100 []) SKind.male {}
    (by decide)
    (fun p hp => absurd hp (List.not_mem_nil p))

/-- C4: at admission, with base tick count `b` (derived from the starting
age when positive, else the constructor-supplied count), global tick counter
`g` and assigned phase index `p`, the seed's action counter is set to
`b + ((g + b + p) mod actionInterval)` and its step counter to the same
value. -/
theorem admission_action_counter_formula (kind : SKind) (data : SeedData)
    (w : World) :
    ((addBuild kind data w).1.tickCount =
      (if 0 < data.age.getD 0
        then data.age.getD 0 * Int.ofNat w.tickPerYear
        else (mkSeed kind data).tickCount) +
      (Int.ofNat w.tickMod +
        (if 0 < data.age.getD 0
          then data.age.getD 0 * Int.ofNat w.tickPerYear
          else (mkSeed kind data).tickCount) +
        Int.ofNat (minIdxScan w.distributedTicks).1) %
        (mkSeed kind data).actionInterval) ∧
    (addBuild kind data w).1.stepCount = (addBuild kind data w).1.tickCount := by
  rcases data with ⟨da, dtc, dx, dy⟩
  cases dx <;> cases dy <;> exact ⟨rfl, rfl⟩

/-- C5: evicting a member of a mutually married pair clears both partners'
married flags and both back-references (no dangling partner reference
survives), while evicting an unmarried seed leaves every seed object —
in particular all marriage state — unchanged. -/
theorem eviction_marriage_teardown :
    (∀ (w : World) (idA idB : Nat) (A B : Seed),
      idA ≠ idB →
      lookupSeed w idA = some A → lookupSeed w idB = some B →
      A.married = true → B.married = true →
      A.relationSeed = some idB → B.relationSeed = some idA →
      (∃ A2, lookupSeed (remove idA w) idA = some A2 ∧
        A2.married = false ∧ A2.relationSeed = none) ∧
      (∃ B2, lookupSeed (remove idA w) idB = some B2 ∧
        B2.married = false ∧ B2.relationSeed = none)) ∧
    (∀ (w : World) (id : Nat) (s : Seed),
      lookupSeed w id = some s → s.married = false →
      (remove id w).seeds = w.seeds) := by
  constructor
  · intro w idA idB A B hne hA hB hAm hBm hArel hBrel
    have hBlook : lookupSeed
        (updateSeed { w with statPopulation := w.statPopulation - 1 } idA
          { A with married := false, relationSeed := none }) idB = some B := by
      rw [lookupSeed, updateSeed, findSeed_set_ne idA idB _ (Ne.symm hne)]
      exact hB
    have hseeds : (remove idA w).seeds =
        setSeedFields (setSeedFields w.seeds idA
            { A with married := false, relationSeed := none }) idB
          { B with married := false, relationSeed := none } := by
      rw [remove_eq_some w idA A hA]
      dsimp only
      rw [if_pos hAm]
      rw [marryTeardown_eq_some { w with statPopulation := w.statPopulation - 1 }
        idA A idB hArel]
      rw [hBlook]
      rfl
    refine ⟨⟨{ A with married := false, relationSeed := none }, ?_, rfl, rfl⟩,
      ⟨{ B with married := false, relationSeed := none }, ?_, rfl, rfl⟩⟩
    · rw [lookupSeed, hseeds, findSeed_set_ne idB idA _ hne,
        findSeed_set_self]
      rw [lookupSeed] at hA
      rw [hA]
      rfl
    · rw [lookupSeed, hseeds, findSeed_set_self]
      have : findSeed (setSeedFields w.seeds idA
          { A with married := false, relationSeed := none }) idB =
          findSeed w.seeds idB :=
        findSeed_set_ne idA idB _ (Ne.symm hne) w.seeds
      rw [this]
      rw [lookupSeed] at hB
      rw [hB]
      rfl
  · intro w id s h hm
    rw [remove_eq_some w id s h]
    dsimp only
    rw [hm]
    rfl

/-- C7: each tick advances the tick counter by one modulo `tickPerYear` and
sets the year flag exactly when the counter wraps to zero; consequently a
world with `tickPerYear = 60` and no admitted seeds, run for 60 ticks, fires
yearPassed exactly once (on the 60th tick), at which point the aggregated
population is zero and the world stops itself: `running` becomes false and
no further tick is scheduled. -/
theorem year_boundary_tick_semantics :
    (∀ (beh : Nat → World → World), BehOk beh → ∀ w : World,
      (run beh w).tickMod = (w.tickMod + 1) % w.tickPerYear ∧
        ((run beh w).lastYearPassed = true ↔
          (w.tickMod + 1) % w.tickPerYear = 0)) ∧
    c7World.tickPerYear = 60 ∧
    ((List.range 59).all fun k => !(runN behId (k + 1) c7World).lastYearPassed) =
      true ∧
    ((List.range 59).all fun k => (runN behId (k + 1) c7World).scheduledNext) =
      true ∧
    (runN behId 60 c7World).lastYearPassed = true ∧
    (runN behId 60 c7World).yearEvents = 1 ∧
    (runN behId 60 c7World).lastAggregates = some aggZero ∧
    (runN behId 60 c7World).statPopulation = 0 ∧
    (runN behId 60 c7World).running = false ∧
    (runN behId 60 c7World).scheduledNext = false := by
  refine ⟨?_, by decide, by decide, by decide, by decide, by decide, by decide,
    by decide, by decide, by decide⟩
  intro beh hb w
  obtain ⟨h1, h2⟩ := run_counter beh hb w
  refine ⟨h1, ?_⟩
  rw [h2]
  exact beq_iff_eq

/-- Witness for C7: the general counter-advance part instantiated at the
identity behavior and the scenario world. -/
theorem year_boundary_tick_semantics_wit :
    (run behId c7World).tickMod = (c7World.tickMod + 1) % c7World.tickPerYear ∧
      ((run behId c7World).lastYearPassed = true ↔
        (c7World.tickMod + 1) % c7World.tickPerYear = 0) :=
  year_boundary_tick_semantics.1 behId behId_ok c7World

theorem finishTick_stop_none (X : World) (L : List Nat)
    (hcb : X.stopCallback = none) (hlog : X.stopLog = L) :
    (finishTick X).stopLog = L ∧ (finishTick X).stopCallback = none := by
  unfold finishTick
  split
  · exact ⟨hlog, hcb⟩
  · split
    next cb heq =>
        rw [hcb] at heq
        exact absurd heq (by simp)
    next heq => exact ⟨hlog, rfl⟩

theorem finishTick_invoke_fields (X : World) (cb : Nat) (L : List Nat)
    (h1 : X.running = false) (h2 : X.stopCallback = some cb)
    (h3 : X.stopLog = L) :
    (finishTick X).stopLog = L ++ [cb] ∧
      (finishTick X).stopCallback = none := by
  rw [finishTick_invoke X cb h1 h2]
  refine ⟨?_, rfl⟩
  show X.stopLog ++ [cb] = L ++ [cb]
  rw [h3]

/-- The shape of `run` on a year boundary with survivors. -/
theorem run_eq_finish_yp (beh : Nat → World → World) (w : World)
    (hyp : ((preTick w).tickMod == 0) = true)
    (hpop : ¬ ((runLoop beh ((preTick w).tickMod == 0)
      (preTick w)).2.population == 0) = true) :
    run beh w = finishTick
      { (runLoop beh ((preTick w).tickMod == 0) (preTick w)).1 with
        lastAggregates :=
          some (runLoop beh ((preTick w).tickMod == 0) (preTick w)).2
        statPopulation :=
          Int.ofNat (runLoop beh ((preTick w).tickMod == 0)
            (preTick w)).2.population
        yearEvents :=
          (runLoop beh ((preTick w).tickMod == 0)
            (preTick w)).1.yearEvents + 1 } := by
  unfold run
  dsimp only
  rw [if_pos hyp, if_neg hpop]

/-- The shape of `run` off a year boundary. -/
theorem run_eq_finish_noyp (beh : Nat → World → World) (w : World)
    (hyp : ¬ ((preTick w).tickMod == 0) = true) :
    run beh w =
      finishTick (runLoop beh ((preTick w).tickMod == 0) (preTick w)).1 := by
  unfold run
  dsimp only
  rw [if_neg hyp]

/-- The shape of `run` on the extinction early-return. -/
theorem run_eq_extinct (beh : Nat → World → World) (w : World)
    (hyp : ((preTick w).tickMod == 0) = true)
    (hpop : ((runLoop beh ((preTick w).tickMod == 0)
      (preTick w)).2.population == 0) = true) :
    run beh w =
      { (runLoop beh ((preTick w).tickMod == 0) (preTick w)).1 with
        lastAggregates :=
          some (runLoop beh ((preTick w).tickMod == 0) (preTick w)).2
        statPopulation :=
          Int.ofNat (runLoop beh ((preTick w).tickMod == 0)
            (preTick w)).2.population
        yearEvents :=
          (runLoop beh ((preTick w).tickMod == 0)
            (preTick w)).1.yearEvents + 1
        running := false } := by
  unfold run
  dsimp only
  rw [if_pos hyp, if_pos hpop]

/-- A tick whose stored stop callback is the no-op invokes nothing and keeps
the no-op, regardless of the path taken. -/
theorem run_stop_of_none (beh : Nat → World → World) (hb : BehOk beh)
    (v : World) (hcb : v.stopCallback = none) :
    (run beh v).stopLog = v.stopLog ∧ (run beh v).stopCallback = none := by
  have hloop := ctrlEq_runLoop beh hb ((preTick v).tickMod == 0) (preTick v)
  obtain ⟨-, hcb2, hlog, -, -, -, -, -⟩ := hloop
  have hpcb : (runLoop beh ((preTick v).tickMod == 0)
      (preTick v)).1.stopCallback = none := hcb2.trans hcb
  have hplog : (runLoop beh ((preTick v).tickMod == 0)
      (preTick v)).1.stopLog = v.stopLog := hlog
  by_cases hyp : ((preTick v).tickMod == 0) = true
  · by_cases hpop : ((runLoop beh ((preTick v).tickMod == 0)
        (preTick v)).2.population == 0) = true
    · rw [run_eq_extinct beh v hyp hpop]
      exact ⟨hplog, hpcb⟩
    · rw [run_eq_finish_yp beh v hyp hpop]
      constructor
      · refine (finishTick_stop_none _ v.stopLog ?_ ?_).1
        · exact hpcb
        · exact hplog
      · refine (finishTick_stop_none _ v.stopLog ?_ ?_).2
        · exact hpcb
        · exact hplog
  · rw [run_eq_finish_noyp beh v hyp]
    constructor
    · refine (finishTick_stop_none _ v.stopLog ?_ ?_).1
      · exact hpcb
      · exact hplog
    · refine (finishTick_stop_none _ v.stopLog ?_ ?_).2
      · exact hpcb
      · exact hplog

/-- C10: when a year-boundary tick aggregates a population of zero, `run`
sets `running` to false and returns before the loop-animation tail: the
stored stop callback is neither invoked nor reset, and no further tick is
scheduled — a callback registered by a prior `stop(cb)` is never invoked
when the world stops itself through extinction. -/
theorem extinction_skips_stop_callback (beh : Nat → World → World)
    (hb : BehOk beh) (w : World)
    (hyear : (w.tickMod + 1) % w.tickPerYear = 0)
    (hpop : (runLoop beh ((preTick w).tickMod == 0)
      (preTick w)).2.population = 0) :
    (run beh w).running = false ∧
      (run beh w).stopCallback = w.stopCallback ∧
      (run beh w).stopLog = w.stopLog ∧
      (run beh w).scheduledNext = false := by
  have hloop := ctrlEq_runLoop beh hb ((preTick w).tickMod == 0) (preTick w)
  obtain ⟨-, hcb, hlog, -, -, -, -, hsch⟩ := hloop
  have hyp : ((preTick w).tickMod == 0) = true := by
    show (((w.tickMod + 1) % w.tickPerYear) == 0) = true
    rw [hyear]
    rfl
  have hpop2 : ((runLoop beh ((preTick w).tickMod == 0)
      (preTick w)).2.population == 0) = true := by
    rw [hpop]
    rfl
  unfold run
  dsimp only
  rw [if_pos hyp, if_pos hpop2]
  exact ⟨rfl, hcb, hlog, hsch⟩

/-- A `random(min, max)` draw lands in `[min, max]` whenever the range is
nonempty. -/
theorem randDraw_bounds (w : World) (lo hi : Int) (hlohi : lo ≤ hi) :
    lo ≤ (randDraw w lo hi).1 ∧ (randDraw w lo hi).1 ≤ hi := by
  unfold randDraw
  dsimp only
  split
  next hspan => exact ⟨le_refl lo, hlohi⟩
  next hspan =>
      have hpos : 0 < (hi - lo + 1).toNat := by omega
      have hmod : w.rng.headD 0 % (hi - lo + 1).toNat < (hi - lo + 1).toNat :=
        Nat.mod_lt _ hpos
      constructor <;> omega

/-- C8: every admission without a forced position draws a position with
`x ∈ [0, width - 1 - max(footprintWidth, padding)]` and
`y ∈ [0, height - 1 - footprintHeight - padding]`, and every admission
assigns the identity `nextSeedId` — positive and strictly greater than all
previously assigned identities — and re-establishes that property;
consequently admitting 10 random seeds (ages 15-20, no forced position)
yields identities 1..10 (distinct and positive), 10 in-bounds positions,
and phase-load counters summing to 10. -/
theorem admission_position_identity :
    (∀ (kind : SKind) (data : SeedData) (w : World),
      data.x = none → data.y = none →
      max (mkSeed kind data).apprWidth w.padding ≤ w.width - 1 →
      (mkSeed kind data).apprHeight + w.padding ≤ w.height - 1 →
      (∀ p ∈ w.seeds, p.1 < w.nextSeedId) → 0 < w.nextSeedId →
      (∃ xv, (addBuild kind data w).1.x = some xv ∧ 0 ≤ xv ∧
        xv ≤ w.width - 1 - max (mkSeed kind data).apprWidth w.padding) ∧
      (∃ yv, (addBuild kind data w).1.y = some yv ∧ 0 ≤ yv ∧
        yv ≤ w.height - 1 - (mkSeed kind data).apprHeight - w.padding) ∧
      (addBuild kind data w).1.id = w.nextSeedId ∧
      0 < (addBuild kind data w).1.id ∧
      (∀ p ∈ w.seeds, p.1 < (addBuild kind data w).1.id) ∧
      (add kind data w).nextSeedId = w.nextSeedId + 1 ∧
      (∀ p ∈ (add kind data w).seeds, p.1 < (add kind data w).nextSeedId) ∧
      0 < (add kind data w).nextSeedId) ∧
    (c8World.seeds.map Prod.fst = [1, 2, 3, 4, 5, 6, 7, 8, 9, 10] ∧
      (∀ p ∈ c8World.seeds, 0 < p.1) ∧
      (∀ p ∈ c8World.seeds, p.2.x ≠ none ∧ 0 ≤ p.2.x.getD 0 ∧
        p.2.x.getD 0 ≤ 200 - 1 - max 13 10 ∧ p.2.y ≠ none ∧
        0 ≤ p.2.y.getD 0 ∧ p.2.y.getD 0 ≤ 100 - 1 - 20 - 10) ∧
      c8World.distributedTicks.sum = 10) := by
  constructor
  · intro kind data w hdx hdy hx hy hkeys hpos
    obtain ⟨da, dtc, dx, dy⟩ := data
    dsimp only at hdx hdy
    subst hdx
    subst hdy
    refine ⟨⟨_, rfl, ?_, ?_⟩, ⟨_, rfl, ?_, ?_⟩,
      addBuild_seed_id kind _ w, ?_, ?_, ?_, ?_, ?_⟩
    · exact (randDraw_bounds _ _ _ (by
        show (0 : Int) ≤ w.width - 1 -
          max (mkSeed kind ⟨da, dtc, none, none⟩).apprWidth w.padding
        omega)).1
    · exact (randDraw_bounds _ _ _ (by
        show (0 : Int) ≤ w.width - 1 -
          max (mkSeed kind ⟨da, dtc, none, none⟩).apprWidth w.padding
        omega)).2
    · exact (randDraw_bounds _ _ _ (by
        show (0 : Int) ≤ w.height - 1 -
          (mkSeed kind ⟨da, dtc, none, none⟩).apprHeight - w.padding
        omega)).1
    · exact (randDraw_bounds _ _ _ (by
        show (0 : Int) ≤ w.height - 1 -
          (mkSeed kind ⟨da, dtc, none, none⟩).apprHeight - w.padding
        omega)).2
    · rw [addBuild_seed_id]
      exact hpos
    · intro p hp
      rw [addBuild_seed_id]
      exact hkeys p hp
    · rw [add, addBuild_nextSeedId]
    · intro p hp
      rw [add, addBuild_nextSeedId]
      rw [add, addBuild_seeds] at hp
      rcases List.mem_append.mp hp with hp | hp
      · exact Nat.lt_succ_of_lt (hkeys p hp)
      · have hpe : p = (w.nextSeedId, (addBuild kind ⟨da, dtc, none, none⟩ w).1) := by
          simpa using hp
        rw [hpe]
        exact Nat.lt_succ_self _
    · rw [add, addBuild_nextSeedId]
      omega
  · refine ⟨by decide, by decide, by decide, by decide⟩

/-- Witness for C8's single-admission part at a fresh default world. -/
theorem admission_position_identity_wit :
    (∃ xv, (addBuild SKind.male {} (worldNew 200 100 [3, 4])).1.x = some xv ∧
      0 ≤ xv ∧ xv ≤ 200 - 1 -
        max (mkSeed SKind.male {}).apprWidth (worldNew 200 100 [3, 4]).padding) ∧
    (∃ yv, (addBuild SKind.male {} (worldNew 200 100 [3, 4])).1.y = some yv ∧
      0 ≤ yv ∧ yv ≤ 100 - 1 -
        (mkSeed SKind.male {}).apprHeight - (worldNew 200 100 [3, 4]).padding) ∧
    (addBuild SKind.male {} (worldNew 200 100 [3, 4])).1.id =
      (worldNew 200 100 [3, 4]).nextSeedId ∧
    0 < (addBuild SKind.male {} (worldNew 200 100 [3, 4])).1.id ∧
    (∀ p ∈ (worldNew 200 100 [3, 4]).seeds,
      p.1 < (addBuild SKind.male {} (worldNew 200 100 [3, 4])).1.id) ∧
    (add SKind.male {} (worldNew 200 100 [3, 4])).nextSeedId =
      (worldNew 200 100 [3, 4]).nextSeedId + 1 ∧
    (∀ p ∈ (add SKind.male {} (worldNew 200 100 [3, 4])).seeds,
      p.1 < (add SKind.male {} (worldNew 200 100 [3, 4])).nextSeedId) ∧
    0 < (add SKind.male {} (worldNew 200 100 [3, 4])).nextSeedId :=
  admission_position_identity.1 SKind.male {} (worldNew 200 100 [3, 4])
    rfl rfl (by decide) (by decide)
    (fun p hp => absurd hp (List.not_mem_nil p)) (by decide)

/-- C9 counterexample: an admission with a forced position far outside the
arena bounds is not rejected at the lifecycle boundary: `add` performs its
normal mutations (identity allocator, statistics count, phase-load
counters), keeping the out-of-bounds position — refuting the claimed
all-or-nothing rejection before any state mutation. -/
theorem invalid_input_rejection_cex :
    ((10000 : Int) ≥ c9World.width ∧ (10000 : Int) ≥ c9World.height) ∧
      (addBuild SKind.male c9Data c9World).1.x = some 10000 ∧
      ¬ ((add SKind.male c9Data c9World).nextSeedId = c9World.nextSeedId ∧
        (add SKind.male c9Data c9World).statPopulation =
          c9World.statPopulation ∧
        (add SKind.male c9Data c9World).distributedTicks =
          c9World.distributedTicks) := by
  decide

/-- C9 (amended): a non-positive count passed to `addRandomPeople` performs
no state mutation (the loop body never runs); an out-of-bounds forced
position, however, is not validated: `add` always increments the identity
allocator and the statistics count, and keeps any forced coordinates
verbatim. -/
theorem invalid_input_rejection_amended :
    (∀ (count : Int) (minAgeO maxAgeO fromBorderO : Option Int) (w : World),
      count ≤ 0 → addRandomPeople count minAgeO maxAgeO fromBorderO w = w) ∧
    (∀ (kind : SKind) (data : SeedData) (w : World),
      (add kind data w).nextSeedId = w.nextSeedId + 1 ∧
      (add kind data w).statPopulation = w.statPopulation + 1 ∧
      (∀ xv, data.x = some xv → (addBuild kind data w).1.x = some xv) ∧
      (∀ yv, data.y = some yv → (addBuild kind data w).1.y = some yv)) := by
  constructor
  · intro count minAgeO maxAgeO fromBorderO w hc
    unfold addRandomPeople
    dsimp only
    rw [Int.toNat_of_nonpos hc]
    rfl
  · intro kind data w
    refine ⟨by rw [add, addBuild_nextSeedId],
      by rw [add, addBuild_statPopulation], ?_, ?_⟩
    · intro xv hxv
      obtain ⟨da, dtc, dx, dy⟩ := data
      dsimp only at hxv
      subst hxv
      cases dy <;> rfl
    · intro yv hyv
      obtain ⟨da, dtc, dx, dy⟩ := data
      dsimp only at hyv
      subst hyv
      cases dx <;> rfl

/-- Witness for the amended C9 at the concrete out-of-bounds data. -/
theorem invalid_input_rejection_amended_wit :
    addRandomPeople (-3) none none none c9World = c9World ∧
      (add SKind.male c9Data c9World).nextSeedId = c9World.nextSeedId + 1 ∧
      (add SKind.male c9Data c9World).statPopulation =
        c9World.statPopulation + 1 ∧
      (addBuild SKind.male c9Data c9World).1.x = some 10000 :=
  ⟨invalid_input_rejection_amended.1 (-3) none none none c9World (by decide),
    (invalid_input_rejection_amended.2 SKind.male c9Data c9World).1,
    (invalid_input_rejection_amended.2 SKind.male c9Data c9World).2.1,
    (invalid_input_rejection_amended.2 SKind.male c9Data c9World).2.2.1
      10000 rfl⟩

/-- C6 counterexample: in `c6World` (one tick before a year boundary, no
seeds) a single `stop(5)` is issued, then the in-flight tick completes.  The
tick completes with `running = false`, yet callback 5 is never invoked (the
stop log stays empty) and the stored callback is not reset — refuting the
claim that one or more `stop(cb)` requests always result in `cb` being
invoked exactly once when the in-flight tick completes with running false. -/
theorem stop_callback_once_cex :
    (run behId (stop (some 5) c6World)).running = false ∧
      (stop (some 5) c6World).stopLog = [] ∧
      (run behId (stop (some 5) c6World)).stopLog = [] ∧
      (run behId (stop (some 5) c6World)).stopCallback = some 5 := by
  decide

/-- C6 (amended): calling `stop(cb)` one or more times before the in-flight
tick completes is idempotent in the stored state, and — provided the
completing tick does not take the extinction early-return (year boundary
with zero aggregated population; in that case the callback is neither
invoked nor reset, see the extinction claim) — `cb` is invoked exactly once
when that tick completes, after which the stored callback is reset to the
no-op, so a later tick invokes nothing further. -/
theorem stop_callback_once_amended (beh : Nat → World → World) (hb : BehOk beh)
    (w : World) (cb : Nat)
    (hext : ¬ (((stop (some cb) w).tickMod + 1) %
        (stop (some cb) w).tickPerYear = 0 ∧
      (runLoop beh ((preTick (stop (some cb) w)).tickMod == 0)
        (preTick (stop (some cb) w))).2.population = 0)) :
    stop (some cb) (stop (some cb) w) = stop (some cb) w ∧
      (run beh (stop (some cb) w)).stopLog =
        (stop (some cb) w).stopLog ++ [cb] ∧
      (run beh (stop (some cb) w)).stopCallback = none ∧
      (run beh (run beh (stop (some cb) w))).stopLog =
        (run beh (stop (some cb) w)).stopLog := by
  have hloop := ctrlEq_runLoop beh hb
    ((preTick (stop (some cb) w)).tickMod == 0) (preTick (stop (some cb) w))
  obtain ⟨hrun, hcb2, hlog, -, -, -, -, -⟩ := hloop
  have hprun : (runLoop beh ((preTick (stop (some cb) w)).tickMod == 0)
      (preTick (stop (some cb) w))).1.running = false := hrun
  have hpcb : (runLoop beh ((preTick (stop (some cb) w)).tickMod == 0)
      (preTick (stop (some cb) w))).1.stopCallback = some cb := hcb2
  have hplog : (runLoop beh ((preTick (stop (some cb) w)).tickMod == 0)
      (preTick (stop (some cb) w))).1.stopLog =
      (stop (some cb) w).stopLog := hlog
  have hmain : (run beh (stop (some cb) w)).stopLog =
      (stop (some cb) w).stopLog ++ [cb] ∧
      (run beh (stop (some cb) w)).stopCallback = none := by
    by_cases hyp : ((preTick (stop (some cb) w)).tickMod == 0) = true
    · have hpop : ¬ ((runLoop beh
          ((preTick (stop (some cb) w)).tickMod == 0)
          (preTick (stop (some cb) w))).2.population == 0) = true := by
        intro hc
        exact hext ⟨beq_iff_eq.mp hyp, beq_iff_eq.mp hc⟩
      rw [run_eq_finish_yp beh (stop (some cb) w) hyp hpop]
      constructor
      · refine (finishTick_invoke_fields _ cb
            ((stop (some cb) w).stopLog) ?_ ?_ ?_).1
        · exact hprun
        · exact hpcb
        · exact hplog
      · refine (finishTick_invoke_fields _ cb
            ((stop (some cb) w).stopLog) ?_ ?_ ?_).2
        · exact hprun
        · exact hpcb
        · exact hplog
    · rw [run_eq_finish_noyp beh (stop (some cb) w) hyp]
      constructor
      · refine (finishTick_invoke_fields _ cb
            ((stop (some cb) w).stopLog) ?_ ?_ ?_).1
        · exact hprun
        · exact hpcb
        · exact hplog
      · refine (finishTick_invoke_fields _ cb
            ((stop (some cb) w).stopLog) ?_ ?_ ?_).2
        · exact hprun
        · exact hpcb
        · exact hplog
  exact ⟨rfl, hmain.1, hmain.2,
    (run_stop_of_none beh hb (run beh (stop (some cb) w)) hmain.2).1⟩

/-- Witness for the amended C6 at the identity behavior and a mid-year
scenario world. -/
theorem stop_callback_once_amended_wit :
    stop (some 5) (stop (some 5) c6World2) = stop (some 5) c6World2 ∧
      (run behId (stop (some 5) c6World2)).stopLog =
        (stop (some 5) c6World2).stopLog ++ [5] ∧
      (run behId (stop (some 5) c6World2)).stopCallback = none ∧
      (run behId (run behId (stop (some 5) c6World2))).stopLog =
        (run behId (stop (some 5) c6World2)).stopLog :=
  stop_callback_once_amended behId behId_ok c6World2 5 (by decide)

/-- Witness for C10 at the concrete pre-boundary world with a registered
callback. -/
theorem extinction_skips_stop_callback_wit :
    (run behId c10World).running = false ∧
      (run behId c10World).stopCallback = c10World.stopCallback ∧
      (run behId c10World).stopLog = c10World.stopLog ∧
      (run behId c10World).scheduledNext = false :=
  extinction_skips_stop_callback behId behId_ok c10World (by decide) (by decide)

/-- Witness for C5: the concrete married pair of `c5World`, and the
unmarried seed of `c2World`. -/
theorem eviction_marriage_teardown_wit :
    ((∃ A2, lookupSeed (remove 1 c5World) 1 = some A2 ∧
        A2.married = false ∧ A2.relationSeed = none) ∧
      (∃ B2, lookupSeed (remove 1 c5World) 2 = some B2 ∧
        B2.married = false ∧ B2.relationSeed = none)) ∧
    (remove 1 c2World).seeds = c2World.seeds :=
  ⟨eviction_marriage_teardown.1 c5World 1 2 c5A c5B (by decide) (by decide)
      (by decide) rfl rfl rfl rfl,
    eviction_marriage_teardown.2 c2World 1 c2Seed (by decide) (by decide)⟩

end WorldJS
